import Mathlib

/-!
Verification of the MetaFormer streaming CSV type-inference core.

The Lean definitions below are a shallow embedding of the Python sources in
`data_processor/utils/` (`series_type_constants.py`, `series_type_conversion.py`,
`series_type_inference.py`, `data_frame_type_inference.py`,
`background_inference_task.py`).  The pipeline reads CSV cells as raw strings
(pandas `dtype='object'`), so every converter is modelled at the level of a
single string cell; a column is a `List (Option String)` where `none` is a
missing (NA) cell.  Counters (`column_types` entries) are modelled as the
total lookup function `String → Option Nat`, mirroring the Python dict keyed
by the friendly type name; category accumulators are `Finset String`.

Calls into pandas / numpy (`pd.to_numeric`, `pd.to_datetime`,
`pd.to_timedelta`, the Python `complex` constructor) are modelled by
executable parsers whose doc comments state exactly what is and is not
modelled.  No theorem in this file depends on the unmodelled corners.
-/

/-- The `InferenceType` enum of `series_type_constants.py`: the closed set of
data types supported for inference and schemas. -/
inductive InferenceType where
  | BOOL
  | INT8
  | INT16
  | INT32
  | INT64
  | FLOAT32
  | FLOAT64
  | COMPLEX
  | DATETIME     -- MDY
  | DATETIME_Y   -- YMD
  | DATETIME_D   -- DMY
  | TIMEDELTA
  | CATEGORY
  | OBJECT
deriving DecidableEq, Fintype, Repr

namespace InferenceType

/-- The `.value` of each enum member: the friendly (JSON) name of the type. -/
def value : InferenceType → String
  | .BOOL => "bool"
  | .INT8 => "int8"
  | .INT16 => "int16"
  | .INT32 => "int32"
  | .INT64 => "int64"
  | .FLOAT32 => "float32"
  | .FLOAT64 => "float64"
  | .COMPLEX => "complex"
  | .DATETIME => "datetime"
  | .DATETIME_Y => "datetime_y"
  | .DATETIME_D => "datetime_d"
  | .TIMEDELTA => "timedelta"
  | .CATEGORY => "category"
  | .OBJECT => "object"

end InferenceType

/-- `inference_types_numeric`: numeric types, most restrictive first. -/
def inference_types_numeric : List InferenceType :=
  [.BOOL, .INT8, .INT16, .INT32, .INT64, .FLOAT32, .FLOAT64, .COMPLEX]

/-- `inference_types_non_numeric`: non-numeric types, most restrictive first. -/
def inference_types_non_numeric : List InferenceType :=
  [.TIMEDELTA, .DATETIME, .DATETIME_D, .DATETIME_Y]

/-- `inference_types_all`: numeric, then non-numeric, then category and object. -/
def inference_types_all : List InferenceType :=
  inference_types_numeric ++ inference_types_non_numeric ++ [.CATEGORY, .OBJECT]

/-- A typed cell produced by a converter.  `b/i/f/z/dt/td` are the boolean,
integer, real, complex, datetime and timedelta payloads; `s` is an opaque
string (category / object).  Real numbers are carried exactly as rationals:
the claims under verification depend on parse success and on the significant
digit guard, not on IEEE rounding, which is therefore not modelled. -/
inductive CellValue where
  | b : Bool → CellValue
  | i : Int → CellValue
  | f : Rat → CellValue
  | z : Rat → Rat → CellValue
  | dt : Nat → Nat → Nat → Nat → Nat → Nat → CellValue
  | td : Int → CellValue
  | s : String → CellValue
deriving DecidableEq, Repr

/-! ### Modelled library parsers -/

/-- Numeric value of a list of ASCII digit characters. -/
def natOfDigits (l : List Char) : Nat :=
  l.foldl (fun n c => n * 10 + (c.toNat - 48)) 0

/-- Strip leading and trailing whitespace from a character list (the
character-level counterpart of `str.strip` / `String.trim`). -/
def trimChars (l : List Char) : List Char :=
  ((l.dropWhile Char.isWhitespace).reverse.dropWhile Char.isWhitespace).reverse

/-- Parse a full (already trimmed) character list as an optionally signed
decimal literal with optional fractional part and optional `e`/`E` exponent.
The whole list must be consumed and at least one mantissa digit present.
The value is assembled with `Rat.divInt` over integer numerator/denominator
so that concrete parses reduce inside the kernel. -/
def parseDec (l : List Char) : Option Rat :=
  let (sign, l1) : Int × List Char :=
    match l with
    | '+' :: rest => (1, rest)
    | '-' :: rest => (-1, rest)
    | _ => (1, l)
  let intPart := l1.takeWhile Char.isDigit
  let l2 := l1.dropWhile Char.isDigit
  let (fracPart, l3) : List Char × List Char :=
    match l2 with
    | '.' :: rest => (rest.takeWhile Char.isDigit, rest.dropWhile Char.isDigit)
    | _ => ([], l2)
  if intPart.isEmpty ∧ fracPart.isEmpty then none
  else
    let mantNum : Int := sign * (natOfDigits (intPart ++ fracPart) : Int)
    let mantDen : Nat := 10 ^ fracPart.length
    match l3 with
    | [] => some (Rat.divInt mantNum mantDen)
    | c :: rest =>
      if c = 'e' ∨ c = 'E' then
        let (epos, rest1) : Bool × List Char :=
          match rest with
          | '+' :: r => (true, r)
          | '-' :: r => (false, r)
          | _ => (true, rest)
        let expDigits := rest1.takeWhile Char.isDigit
        let rest2 := rest1.dropWhile Char.isDigit
        if expDigits.isEmpty ∨ ¬rest2.isEmpty then none
        else
          let e := natOfDigits expDigits
          if epos then some (Rat.divInt (mantNum * ((10 ^ e : Nat) : Int)) mantDen)
          else some (Rat.divInt mantNum (mantDen * 10 ^ e))
      else none

/-- Modelled from pandas `pd.to_numeric(..., errors='coerce')` applied to a
string cell: surrounding whitespace is stripped and the remainder parsed as a
signed decimal/scientific literal.  Special tokens (`inf`, `nan`) and
locale/underscore forms are not modelled; no claim depends on them. -/
def pd_to_numeric (s : String) : Option Rat :=
  parseDec (trimChars s.toList)

/-- Modelled from pandas `pd.to_timedelta(..., errors='coerce')` on a string
cell: recognizes `"<n> day"` / `"<n> days"` (whole days, as nanoseconds) and
`"H:M:S"` clock durations.  Other duration syntaxes accepted by pandas are
not modelled; no claim depends on them (the claims only require that
non-duration text such as `"a"` coerces to NaT). -/
def pd_to_timedelta (s : String) : Option Int :=
  let l := trimChars s.toList
  let digits := l.takeWhile Char.isDigit
  let rest := l.dropWhile Char.isDigit
  if digits.isEmpty then none
  else if rest = " day".toList ∨ rest = " days".toList then
    some ((natOfDigits digits * 86400000000000 : Nat) : Int)
  else
    match rest with
    | ':' :: r1 =>
      let m := r1.takeWhile Char.isDigit
      (match r1.dropWhile Char.isDigit with
       | ':' :: r2 =>
         let sec := r2.takeWhile Char.isDigit
         if m.isEmpty ∨ sec.isEmpty ∨ ¬(r2.dropWhile Char.isDigit).isEmpty then none
         else
           some (((natOfDigits digits * 3600 + natOfDigits m * 60
             + natOfDigits sec) * 1000000000 : Nat) : Int)
       | _ => none)
    | _ => none

/-- Modelled from the Python builtin `complex(str)`: a real literal, an
imaginary literal ending in `j`/`J`, or `a±bj`.  Parentheses and the special
`inf`/`nan` payloads are not modelled; no claim depends on them. -/
def python_complex (s : String) : Option (Rat × Rat) :=
  let l := trimChars s.toList
  if (l.getLast? = some 'j' ∨ l.getLast? = some 'J') then
    let body := l.dropLast
    -- split the imaginary tail at the last sign that is not an exponent sign
    let n := body.length
    let splits := (List.range n).filter (fun idx =>
      0 < idx ∧ (body.get? idx = some '+' ∨ body.get? idx = some '-') ∧
        body.get? (idx - 1) ≠ some 'e' ∧ body.get? (idx - 1) ≠ some 'E')
    match splits.getLast? with
    | some idx =>
      let realPart := body.take idx
      let imagPart := body.drop idx
      (match parseDec realPart with
       | none => none
       | some re =>
         if imagPart = ['+'] then some (re, 1)
         else if imagPart = ['-'] then some (re, -1)
         else (parseDec imagPart).map (fun im => (re, im)))
    | none =>
      if body = [] then some (0, 1)
      else if body = ['+'] then some (0, 1)
      else if body = ['-'] then some (0, -1)
      else (parseDec body).map (fun im => (0, im))
  else
    (parseDec l).map (fun re => (re, 0))

/-! ### `series_type_conversion.py`: per-cell converters

The Python converters are vectorized over a pandas Series; since the
inference pipeline always feeds them object-dtype (string) columns, each one
is embedded as its action on a single non-NA string cell (the series-level
wrappers below extend them to NA cells).  The dtype-dispatch branches for
already-boolean / already-numeric / already-datetime inputs
("adding this for completeness" in the source) are unreachable for string
input and are not modelled. -/

/-- `convert_to_bool` on a string cell: case-insensitive mapping of
yes/y/true/1 to True and no/n/false/0 to False, anything else to null. -/
def convert_to_bool_cell (x : String) : Option Bool :=
  let lower := x.toList.map Char.toLower
  if lower = "yes".toList ∨ lower = "y".toList ∨ lower = "true".toList ∨
      lower = "1".toList then some true
  else if lower = "no".toList ∨ lower = "n".toList ∨ lower = "false".toList ∨
      lower = "0".toList then some false
  else none

/-- The `np.iinfo` bounds used by `convert_to_int` for each integer width.
Non-integer targets are never passed by `convert_type`; they get `(0, 0)`. -/
def int_bounds : InferenceType → Int × Int
  | .INT8 => (-128, 127)
  | .INT16 => (-32768, 32767)
  | .INT32 => (-2147483648, 2147483647)
  | .INT64 => (-9223372036854775808, 9223372036854775807)
  | _ => (0, 0)

/-- `convert_to_int` on a string cell: `pd.to_numeric` coercion (complex
strings already coerce to NaN there), then fail on a nonzero fractional part,
then fail outside the signed `N`-bit range. -/
def convert_to_int_cell (pdtype : InferenceType) (x : String) : Option CellValue :=
  match pd_to_numeric x with
  | none => none
  | some q =>
    if q.den ≠ 1 then none
    else
      let bounds := int_bounds pdtype
      if bounds.1 ≤ q.num ∧ q.num ≤ bounds.2 then some (.i q.num) else none

/-- `count_significant_digits`: strip everything from the first `e` (then the
first `E`) onwards, remove all `.`; if what remains is not a nonempty run of
digits the count is 0; otherwise strip leading and trailing zeros and return
the remaining length (1 if nothing remains). -/
def count_significant_digits (str_number : String) : Nat :=
  let s1 := (str_number.toList.takeWhile (fun c => c ≠ 'e')).takeWhile (fun c => c ≠ 'E')
  let s2 := s1.filter (fun c => c ≠ '.')
  if ¬(s2 ≠ [] ∧ s2.all Char.isDigit) then 0
  else
    let s3 := ((s2.dropWhile (fun c => c = '0')).reverse.dropWhile (fun c => c = '0')).reverse
    if s3.isEmpty then 1 else s3.length

/-- `convert_to_float` on a string cell: for `Float32` the significant-digit
guard marks cells with more than 6 significant digits as null before the
numeric coercion; then `pd.to_numeric` coercion. -/
def convert_to_float_cell (pdtype : InferenceType) (x : String) : Option CellValue :=
  if pdtype = .FLOAT32 ∧ 6 < count_significant_digits x then none
  else (pd_to_numeric x).map .f

/-- `convert_to_complex` on a string cell: values that `pd.to_numeric` can
parse are real complex numbers; the rest go through `safe_complex_convert`
(the Python `complex` constructor, null on failure). -/
def convert_to_complex_cell (x : String) : Option CellValue :=
  match pd_to_numeric x with
  | some q => some (.z q 0)
  | none => (python_complex x).map (fun p => .z p.1 p.2)

/-- `convert_to_timedelta` on a string cell: cells that parse as numbers are
nulled first, the rest go through `pd.to_timedelta(..., errors='coerce')`. -/
def convert_to_timedelta_cell (x : String) : Option CellValue :=
  if (pd_to_numeric x).isSome then none
  else (pd_to_timedelta x).map .td

/-- Component order for the three datetime formats `%m/%d/%Y`, `%Y/%m/%d`,
`%d/%m/%Y` passed by `convert_type`. -/
inductive DateOrder where
  | mdy
  | ymd
  | dmy
deriving DecidableEq

/-- Match the anchored regex `^([0-9]+/[0-9]+/[0-9]+)(.*)$` against a
character list, returning the three digit groups and the remainder. -/
def extractDateShape (l : List Char) : Option (Nat × Nat × Nat × List Char) :=
  let d1 := l.takeWhile Char.isDigit
  if d1.isEmpty then none
  else
    match l.dropWhile Char.isDigit with
    | '/' :: r2 =>
      let d2 := r2.takeWhile Char.isDigit
      if d2.isEmpty then none
      else
        match r2.dropWhile Char.isDigit with
        | '/' :: r3 =>
          let d3 := r3.takeWhile Char.isDigit
          if d3.isEmpty then none
          else some (natOfDigits d1, natOfDigits d2, natOfDigits d3, r3.dropWhile Char.isDigit)
        | _ => none
    | _ => none

/-- Modelled from the strict-format `pd.to_datetime` component check: month
in 1..12, day in 1..31, year below 10000.  Per-month day counts and the
pandas `Timestamp` nanosecond range are not modelled; no claim depends on
them. -/
def validDate (y m d : Nat) : Bool :=
  decide (1 ≤ m ∧ m ≤ 12 ∧ 1 ≤ d ∧ d ≤ 31 ∧ y < 10000)

/-- Parse the time remainder of a date cell as `H:M:S` (ranges checked).
The source substitutes `' 00:00:00'` for an all-whitespace remainder before
this parse. -/
def parseTimePart (rest : List Char) : Option (Nat × Nat × Nat) :=
  let t := trimChars rest
  let hh := t.takeWhile Char.isDigit
  match t.dropWhile Char.isDigit with
  | ':' :: r1 =>
    let mm := r1.takeWhile Char.isDigit
    (match r1.dropWhile Char.isDigit with
     | ':' :: r2 =>
       let ss := r2.takeWhile Char.isDigit
       if hh.isEmpty ∨ mm.isEmpty ∨ ss.isEmpty ∨ ¬(r2.dropWhile Char.isDigit).isEmpty then none
       else
         let h := natOfDigits hh
         let m := natOfDigits mm
         let s := natOfDigits ss
         if h < 24 ∧ m < 60 ∧ s < 60 then some (h, m, s) else none
     | _ => none)
  | _ => none

/-- `convert_to_datetime` on a string cell.  Cells that parse as numbers are
nulled.  Otherwise `-` is normalized to `/`; cells matching `N/N/N` are
parsed strictly in the format-prescribed component order with the remainder
as a time-of-day (defaulting to `00:00:00`); cells not matching the shape go
to the `format='mixed'` fallback, which is modelled as parsing nothing (the
claims under verification exercise the fallback only on non-date text, where
pandas also yields NaT). -/
def convert_to_datetime_cell (ord : DateOrder) (x : String) : Option CellValue :=
  if (pd_to_numeric x).isSome then none
  else
    let repl := x.toList.map (fun c => if c = '-' then '/' else c)
    match extractDateShape repl with
    | some (a, b, c, rest) =>
      let ymd : Nat × Nat × Nat :=
        match ord with
        | .mdy => (c, a, b)
        | .ymd => (a, b, c)
        | .dmy => (c, b, a)
      if validDate ymd.1 ymd.2.1 ymd.2.2 then
        if rest.all Char.isWhitespace then
          some (.dt ymd.1 ymd.2.1 ymd.2.2 0 0 0)
        else
          (parseTimePart rest).map (fun t => .dt ymd.1 ymd.2.1 ymd.2.2 t.1 t.2.1 t.2.2)
      else none
    | none => none

/-- The per-cell dispatch behind `convert_type` (one clause per supported
target).  `CATEGORY` is `convert_to_category`, a pass-through to an opaque
string.  The `OBJECT` clause is unreachable through `convert_type`, which
rejects `OBJECT` before dispatching. -/
def convertCell : InferenceType → String → Option CellValue
  | .BOOL, x => (convert_to_bool_cell x).map .b
  | .TIMEDELTA, x => convert_to_timedelta_cell x
  | .DATETIME, x => convert_to_datetime_cell .mdy x
  | .DATETIME_Y, x => convert_to_datetime_cell .ymd x
  | .DATETIME_D, x => convert_to_datetime_cell .dmy x
  | .CATEGORY, x => some (.s x)
  | .INT8, x => convert_to_int_cell .INT8 x
  | .INT16, x => convert_to_int_cell .INT16 x
  | .INT32, x => convert_to_int_cell .INT32 x
  | .INT64, x => convert_to_int_cell .INT64 x
  | .FLOAT32, x => convert_to_float_cell .FLOAT32 x
  | .FLOAT64, x => convert_to_float_cell .FLOAT64 x
  | .COMPLEX, x => convert_to_complex_cell x
  | .OBJECT, x => some (.s x)

/-- Lift a cell converter over a column: NA cells stay NA, conversion
failures become NA. -/
def convertColumn (t : InferenceType) (series : List (Option String)) :
    List (Option CellValue) :=
  series.map (fun c => c.bind (convertCell t))

/-- `convert_type(series, inftype, categories)`: the dispatcher of
`series_type_conversion.py`.  Every supported target returns the converted
column; the trailing `else` raises `ValueError(f"Unsupported data type: ...")`,
which is reached exactly for `OBJECT`.  The `categories` argument is passed to
`convert_to_category`, which ignores it. -/
def convert_type (series : List (Option String)) (inftype : InferenceType)
    (categories : Option (Finset String)) : Except String (List (Option CellValue)) :=
  if inftype = .BOOL then .ok (convertColumn .BOOL series)
  else if inftype = .TIMEDELTA then .ok (convertColumn .TIMEDELTA series)
  else if inftype = .DATETIME then .ok (convertColumn .DATETIME series)
  else if inftype = .DATETIME_Y then .ok (convertColumn .DATETIME_Y series)
  else if inftype = .DATETIME_D then .ok (convertColumn .DATETIME_D series)
  else if inftype = .CATEGORY then .ok (convertColumn .CATEGORY series)
  else if inftype = .INT8 ∨ inftype = .INT16 ∨ inftype = .INT32 ∨ inftype = .INT64 then
    .ok (convertColumn inftype series)
  else if inftype = .FLOAT32 ∨ inftype = .FLOAT64 then .ok (convertColumn inftype series)
  else if inftype = .COMPLEX then .ok (convertColumn .COMPLEX series)
  else .error ("Unsupported data type: " ++ inftype.value)

/-- `get_preferred_type(candidate_types)`: first element of the hard-coded
preference order present in the candidate set, `'object'` if none is. -/
def preferred_types_order : List String :=
  ["bool", "int8", "int16", "int32", "int64", "float32", "float64", "complex",
   "timedelta[ns]", "datetime64[ns]", "category", "object"]

/-- `get_preferred_type` of `series_type_conversion.py`. -/
def get_preferred_type (candidate_types : Finset String) : String :=
  (preferred_types_order.find? (fun dtype => decide (dtype ∈ candidate_types))).getD "object"

/-! ### `series_type_inference.py`: per-column statistics gathering

`type_stats` is the Python dict mapping friendly type names to failure
counts; it is embedded as the total lookup function `String → Option Nat`
(`none` = key absent).  `category_values` is a `Finset String`. -/

/-- Failure-counter dictionaries keyed by the friendly type name. -/
def TypeStats : Type := String → Option Nat

/-- The empty counter dictionary. -/
def emptyStats : TypeStats := fun _ => none

/-- `d[k] = v`: update a counter dictionary at one key. -/
def dictSet (st : TypeStats) (k : String) (v : Nat) : TypeStats :=
  fun k' => if k' = k then some v else st k'

/-- `d.pop(k, None)`: remove a key from a counter dictionary. -/
def dictPop (st : TypeStats) (k : String) : TypeStats :=
  fun k' => if k' = k then none else st k'

/-- `d.get(k, 0)`: lookup with default 0. -/
def getD0 (st : TypeStats) (k : String) : Nat :=
  (st k).getD 0

/-- One numeric-cascade residual step: the values of `res` that failed to
convert at type `t` (`numeric_s[is_na]` in the source). -/
def failedAt (t : InferenceType) (res : List String) : List String :=
  res.filter (fun x => (convertCell t x).isNone)

/-- The numeric cascade of `gather_type_stats`: walk the numeric type order;
ensure each type's counter exists (initializing to 0), and when the current
residual is nonempty add its failure count for the type and shrink the
residual to the failing values. -/
def cascade (st : TypeStats) (res : List String) : List InferenceType → TypeStats
  | [] => st
  | t :: rest =>
    let st1 := if (st t.value).isNone then dictSet st t.value 0 else st
    if res.isEmpty then cascade st1 res rest
    else
      let failed := failedAt t res
      cascade (dictSet st1 t.value (getD0 st1 t.value + failed.length)) failed rest

/-- The non-numeric pass of `gather_type_stats`: each non-numeric type is
evaluated independently on the full non-NA series and its failure count
added to the (possibly absent, defaulting to 0) counter. -/
def nonNumericPass (st : TypeStats) (series : List String) : List InferenceType → TypeStats
  | [] => st
  | t :: rest =>
    nonNumericPass
      (dictSet st t.value (getD0 st t.value + (failedAt t series).length)) series rest

/-- `SeriesTypeInference.gather_type_stats(raw_series, rows_processed,
type_stats, category_values)` with `max_category_values` from the object.
NA values are dropped; `rows_processed` is advanced by the number of non-NA
values; the numeric cascade and the independent non-numeric pass update the
counters; the `'category'` counter is removed and re-granted only when the
batch uniques fit under the cap and the batch unique ratio
`len(unique_values) / rows_processed` is at most one half (the ratio is
modelled with exact rationals via `mkRat`; the source divides floats).
`rows_processed = 0` with a nonempty guard path would divide by zero in the
source; all theorems below that touch the ratio carry a positivity
hypothesis for the advanced row count. -/
def gather_type_stats (max_category_values : Option Nat)
    (raw_series : List (Option String)) (rows_processed : Nat)
    (type_stats : TypeStats) (category_values : Finset String) :
    TypeStats × Finset String :=
  let series := raw_series.filterMap id
  let rows := rows_processed + series.length
  let st1 := cascade type_stats series inference_types_numeric
  let st2 := nonNumericPass st1 series inference_types_non_numeric
  let st3 := dictPop st2 "category"
  match max_category_values with
  | none => (st3, category_values)
  | some mc =>
    if category_values.card ≤ mc then
      let unique_values := series.toFinset
      let max_to_add := mc - category_values.card
      if unique_values.card ≤ max_to_add then
        let category_values1 := category_values ∪ unique_values
        if mc ≠ 0 ∧ unique_values.card ≤ mc ∧ mkRat unique_values.card rows ≤ mkRat 1 2 then
          (dictSet st3 "category" 0, category_values1)
        else (st3, category_values1)
      else (st3, category_values)
    else (st3, category_values)

/-- The `tolerance` argument of `candidates_from_type_stats`: either a
global value (`None` or an integer) or a dict keyed by type name. -/
inductive Tolerance where
  | global : Option Nat → Tolerance
  | perType : (String → Option Nat) → Tolerance

/-- The inner `get_tolerance` helper: dict lookup with default 0, or the
global value with `None` coalesced to 0. -/
def get_tolerance (tolerance : Tolerance) (dtype : String) : Nat :=
  match tolerance with
  | .perType m => (m dtype).getD 0
  | .global t => t.getD 0

/-- `SeriesTypeInference.candidates_from_type_stats(type_stats, tolerance)`:
every type present in the counters with a count within tolerance is a
candidate, and `OBJECT` always is. -/
def candidates_from_type_stats (type_stats : TypeStats) (tolerance : Tolerance) :
    Finset String :=
  inference_types_all.foldl
    (fun candidates dtype =>
      if ((type_stats dtype.value).any fun v => v ≤ get_tolerance tolerance dtype.value)
          ∨ dtype = InferenceType.OBJECT
      then insert dtype.value candidates
      else candidates) ∅

/-! ### `SeriesTypeInference.apply` and `load_data_frame_custom`

The read path converts object-dtype columns loaded by `csv_to_dataframe`;
a row of such a frame is a total function from column name to an optional
raw string.  A per-row exceptions mapping is a total function from column
name to the optional offending raw value. -/

/-- One row's exceptions mapping. -/
def RowExc : Type := String → Option String

/-- The empty exceptions mapping of a clean row. -/
def emptyRowExc : RowExc := fun _ => none

/-- `SeriesTypeInference.apply(data, dtype, category_values, exceptions)`
specialized to an object-dtype input column (the only dtype the read path
produces): the dtype short-circuit `data.dtype == inference_to_pandas_type_map[dtype]`
holds exactly for `OBJECT`, returning the column and the exceptions
untouched.  Otherwise the column is converted with `convert_type` and every
position whose raw value was non-NA but whose converted value is null
records `{column_name: raw_value}` in that row's exceptions mapping
(created as one empty mapping per row if not supplied). -/
def apply_series (name : String) (data : List (Option String)) (dtype : InferenceType)
    (category_values : Option (Finset String)) (exceptions : Option (List RowExc)) :
    List (Option CellValue) × Option (List RowExc) :=
  if dtype = .OBJECT then (data.map (Option.map CellValue.s), exceptions)
  else
    let exc0 := exceptions.getD (List.replicate data.length emptyRowExc)
    let converted := convertColumn dtype data
    let exc1 := List.zipWith
      (fun (rawConv : Option String × Option CellValue) (e : RowExc) =>
        match rawConv with
        | (some raw, none) => fun k => if k = name then some raw else e k
        | _ => e)
      (data.zip converted) exc0
    (converted, some exc1)

/-- A preferred-type assignment for `load_data_frame_custom`: column name,
resolved type, and optional category values. -/
def PreferredType : Type := String × InferenceType × Option (Finset String)

/-- Extract one named column from a row-aligned frame. -/
def colOf (df : List (String → Option String)) (name : String) : List (Option String) :=
  df.map (fun row => row name)

/-- The per-column loop of `DataFrameTypeInference.load_data_frame_custom`:
apply each resolved type in order, threading the exceptions series (which
starts as `None`). -/
def load_columns (df : List (String → Option String)) :
    List PreferredType → Option (List RowExc) →
    List (String × List (Option CellValue)) × Option (List RowExc)
  | [], exceptions => ([], exceptions)
  | (name, dtype, cats) :: rest, exceptions =>
    let cell := apply_series name (colOf df name) dtype
      (if dtype = .CATEGORY then cats else none) exceptions
    let tail := load_columns df rest cell.2
    ((name, cell.1) :: tail.1, tail.2)

/-- `DataFrameTypeInference.load_data_frame_custom(csv_stream, preferred_types,
na_values)` after the non-lossy object-dtype load: convert each column with
its resolved type, accumulating per-row exceptions. -/
def load_data_frame_custom (preferred_types : List PreferredType)
    (df : List (String → Option String)) :
    List (String × List (Option CellValue)) × Option (List RowExc) :=
  load_columns df preferred_types none

/-! ### `DataFrameTypeInference.infer_data_types` (frame-level gathering) -/

/-- The mutable state of a `DataFrameTypeInference` object: per-column
failure counters, per-column category accumulators (defaulting to the empty
set, as `category_values.get(col, set())` does), and the running row count. -/
structure InferState where
  column_types : String → TypeStats
  category_values : String → Finset String
  rows_processed : Nat

/-- A fresh state: every column starts with an empty counter dict (the
driver pre-seeds `schema.column_types[col] = {}` for every column). -/
def initState : InferState :=
  { column_types := fun _ => emptyStats
    category_values := fun _ => ∅
    rows_processed := 0 }

/-- The loop body of `infer_data_types`: gather one column's statistics and
fold them into the state. -/
def gatherStep (max_category_values : Option Nat) (df : List (String → Option String))
    (s : InferState) (col : String) : InferState :=
  let r := gather_type_stats max_category_values (colOf df col) s.rows_processed
    (s.column_types col) (s.category_values col)
  { s with
    column_types := fun c => if c = col then r.1 else s.column_types c
    category_values := fun c => if c = col then r.2 else s.category_values c }

/-- `DataFrameTypeInference.infer_data_types(df)` over the fixed column list
`cols`: gather per-column statistics (each column reads the pre-batch
`rows_processed`), then advance `rows_processed` by the batch length. -/
def infer_data_types (max_category_values : Option Nat) (cols : List String)
    (st : InferState) (df : List (String → Option String)) : InferState :=
  let st1 := cols.foldl (gatherStep max_category_values df) st
  { st1 with rows_processed := st1.rows_processed + df.length }

/-- `Schema.from_inference` sets `position = rows_processed + 1`. -/
def schemaPosition (st : InferState) : Nat :=
  st.rows_processed + 1

/-! ### `BackgroundInferenceTask.do_work`: the empty-read backoff loop

The loop below is `do_work`'s steady state once the reader returns no data:
`while back_off < 60` re-checks upload readiness, reads (empty), and either
finalizes (`status = "complete"`) when the upload is ready, or doubles the
backoff, sleeps the doubled amount, and retries.  The recorded result is the
list of sleep durations together with the final schema status and position,
neither of which the empty-read path modifies.  The `back_off = 0` guard is
unreachable from the initial `back_off = 1` and exists only to make the
recursion well-founded. -/
def do_work_loop (upload_ready : Bool) (back_off : Nat) (status : String)
    (position : Nat) (sleeps : List Nat) : List Nat × String × Nat :=
  if back_off = 0 then (sleeps, status, position)
  else if back_off < 60 then
    if upload_ready then (sleeps, "complete", position)
    else do_work_loop upload_ready (back_off * 2) status position (sleeps ++ [back_off * 2])
  else (sleeps, status, position)
termination_by 60 - back_off
decreasing_by omega

/-! ### Auxiliary definitions used by the verification -/

/-- The residual left by running the numeric cascade's filters for the types
in `ts` over `res` (the chain `S_T` of spec §4.2). -/
def residualAfter (res : List String) (ts : List InferenceType) : List String :=
  ts.foldl (fun r t => failedAt t r) res

/-- Fold a sequence of per-column batches, each paired with its
caller-supplied `rows_processed` argument, through `gather_type_stats`. -/
def gatherSeq (max_category_values : Option Nat)
    (batches : List (List (Option String) × Nat))
    (st : TypeStats) (cat : Finset String) : TypeStats × Finset String :=
  batches.foldl (fun p b => gather_type_stats max_category_values b.1 b.2 p.1 p.2) (st, cat)

/-- Row fixture for concrete scenarios: every column of the row holds `v`. -/
def constRow (v : String) : String → Option String :=
  fun _ => some v

/-- Lookup into an optional exceptions series: the entry of row `i` for
column `k`, with missing series / out-of-range rows reading as empty. -/
def excEntry (exc : Option (List RowExc)) (i : Nat) (k : String) : Option String :=
  match exc with
  | none => none
  | some l => (l.getD i emptyRowExc) k

/-- The counters of the numeric cascade listed in most-restrictive-first
order are non-increasing: each broader type has failed at most as often as
the narrower type before it (absent counters read as 0). -/
def numericCounterChain (st : TypeStats) : Prop :=
  getD0 st "int8" ≤ getD0 st "bool"
    ∧ getD0 st "int16" ≤ getD0 st "int8"
    ∧ getD0 st "int32" ≤ getD0 st "int16"
    ∧ getD0 st "int64" ≤ getD0 st "int32"
    ∧ getD0 st "float32" ≤ getD0 st "int64"
    ∧ getD0 st "float64" ≤ getD0 st "float32"
    ∧ getD0 st "complex" ≤ getD0 st "float64"

/-- Follows the claim's (spec §4.6 step 4) description of the exceptions
structure of the subset-read path, for comparison with
`load_data_frame_custom`: row `i`'s mapping holds, for column `k`, the raw
value exactly when `k`'s resolved type required conversion, the raw cell was
non-NA, and the conversion produced null. -/
def specExceptionEntry (preferred_types : List PreferredType)
    (df : List (String → Option String)) (i : Nat) (k : String) : Option String :=
  match preferred_types.find? (fun p => p.1 = k) with
  | none => none
  | some (_, dtype, _) =>
    if dtype = InferenceType.OBJECT then none
    else
      match (df.getD i (fun _ => none)) k with
      | none => none
      | some raw => if (convertCell dtype raw).isNone then some raw else none

/-! ## Dictionary and cascade lemmas -/

/-- For every supported target (everything except `OBJECT`), `convert_type`
returns the cell-wise converted column; this justifies the cell-level
failure masks used by the gathering lemmas below. -/
lemma convert_type_supported (series : List (Option String)) (t : InferenceType)
    (cats : Option (Finset String)) (ht : t ≠ InferenceType.OBJECT) :
    convert_type series t cats = Except.ok (convertColumn t series) := by
  cases t
  case OBJECT => exact absurd rfl ht
  all_goals rfl

lemma dictSet_same (st : TypeStats) (k : String) (v : Nat) : dictSet st k v k = some v := by
  simp [dictSet]

lemma dictSet_ne (st : TypeStats) (k k' : String) (v : Nat) (h : k' ≠ k) :
    dictSet st k v k' = st k' := by
  simp [dictSet, h]

lemma dictPop_ne (st : TypeStats) (k k' : String) (h : k' ≠ k) :
    dictPop st k k' = st k' := by
  simp [dictPop, h]

lemma getD0_dictSet_ne (st : TypeStats) (k k' : String) (v : Nat) (h : k' ≠ k) :
    getD0 (dictSet st k v) k' = getD0 st k' := by
  simp [getD0, dictSet_ne st k k' v h]

/-- The presence-initialization step of the cascade does not change `getD0`. -/
lemma getD0_init (st : TypeStats) (k k' : String) :
    getD0 (if (st k).isNone then dictSet st k 0 else st) k' = getD0 st k' := by
  by_cases hk : (st k).isNone
  · simp only [hk, if_true]
    by_cases h : k' = k
    · subst h
      simp [getD0, dictSet_same]
      cases hst : st k' <;> simp_all [Option.isNone]
    · simp [getD0_dictSet_ne st k k' 0 h]
  · simp [hk]

lemma init_ne (st : TypeStats) (k k' : String) (h : k' ≠ k) :
    (if (st k).isNone then dictSet st k 0 else st) k' = st k' := by
  by_cases hk : (st k).isNone
  · simp [hk, dictSet_ne st k k' 0 h]
  · simp [hk]

/-- The cascade does not touch counters whose key is not among the walked
types. -/
lemma cascade_ne (ts : List InferenceType) (st : TypeStats) (res : List String)
    (k : String) (h : k ∉ ts.map InferenceType.value) :
    cascade st res ts k = st k := by
  induction ts generalizing st res with
  | nil => simp [cascade]
  | cons t rest ih =>
    simp only [List.map_cons, List.mem_cons, not_or] at h
    obtain ⟨h1, h2⟩ := h
    simp only [cascade]
    by_cases hres : res.isEmpty
    · rw [if_pos hres, ih _ _ h2, init_ne st t.value k h1]
    · rw [if_neg hres, ih _ _ h2, dictSet_ne _ _ _ _ h1, init_ne st t.value k h1]


/-- The presence-initialization step, evaluated at the initialized key. -/
lemma init_at (st : TypeStats) (k : String) :
    (if (st k).isNone then dictSet st k 0 else st) k = some (getD0 st k) := by
  by_cases hk : (st k).isNone
  · rw [if_pos hk, dictSet_same]
    cases hst : st k <;> simp_all [getD0]
  · rw [if_neg hk]
    cases hst : st k <;> simp_all [getD0]

/-- Characterization of one counter after the cascade: for a decomposition
`ts = pre ++ t :: post` with pairwise distinct keys, type `t`'s counter ends
at its starting value (default 0) plus the number of residual values that
fail at `t`. -/
lemma cascade_char (pre : List InferenceType) (t : InferenceType)
    (post : List InferenceType) (st : TypeStats) (res : List String)
    (nd : (((pre ++ t :: post).map InferenceType.value)).Nodup) :
    cascade st res (pre ++ t :: post) t.value
      = some (getD0 st t.value + (failedAt t (residualAfter res pre)).length) := by
  induction pre generalizing st res with
  | nil =>
    simp only [List.nil_append, cascade]
    simp only [List.nil_append, List.map_cons, List.nodup_cons] at nd
    have hnotin : t.value ∉ post.map InferenceType.value := fun hmem => nd.1 hmem
    by_cases hres : res.isEmpty
    · rw [if_pos hres, cascade_ne _ _ _ _ hnotin, init_at]
      obtain rfl : res = [] := List.isEmpty_iff.mp hres
      rfl
    · rw [if_neg hres, cascade_ne _ _ _ _ hnotin, dictSet_same, getD0_init]
      rfl
  | cons u pre' ih =>
    have hne : t.value ≠ u.value := by
      simp only [List.cons_append, List.map_cons, List.nodup_cons, List.mem_map] at nd
      intro h
      exact nd.1 ⟨t, by simp, h⟩
    have nd' : (((pre' ++ t :: post).map InferenceType.value)).Nodup := by
      simp only [List.cons_append, List.map_cons, List.nodup_cons] at nd
      exact nd.2
    simp only [List.cons_append, cascade]
    by_cases hres : res.isEmpty
    · rw [if_pos hres]
      have hnil : res = [] := List.isEmpty_iff.mp hres
      subst hnil
      simp only [List.append_eq] at *
      rw [ih _ _ nd', getD0_init]
      simp [residualAfter, failedAt]
    · rw [if_neg hres]
      simp only [List.append_eq] at *
      rw [ih _ _ nd', getD0_dictSet_ne _ _ _ _ hne, getD0_init]
      simp [residualAfter]

/-- Counters never shrink along the cascade, and present keys stay present. -/
lemma cascade_mono (ts : List InferenceType) (st : TypeStats) (res : List String)
    (k : String) (v : Nat) (h : st k = some v) :
    ∃ v', cascade st res ts k = some v' ∧ v ≤ v' := by
  induction ts generalizing st res v with
  | nil => exact ⟨v, h, le_refl v⟩
  | cons t rest ih =>
    have hinit : (if (st t.value).isNone then dictSet st t.value 0 else st) k = some v := by
      by_cases hn : (st t.value).isNone
      · by_cases hk : k = t.value
        · rw [hk] at h
          rw [h] at hn
          simp at hn
        · rw [if_pos hn, dictSet_ne _ _ _ _ hk]
          exact h
      · rw [if_neg hn]
        exact h
    simp only [cascade]
    by_cases hres : res.isEmpty
    · rw [if_pos hres]
      exact ih _ _ _ hinit
    · rw [if_neg hres]
      by_cases hk : k = t.value
      · obtain ⟨v', hv', hle⟩ := ih
          (dictSet (if (st t.value).isNone then dictSet st t.value 0 else st) t.value
            (getD0 (if (st t.value).isNone then dictSet st t.value 0 else st) t.value
              + (failedAt t res).length))
          (failedAt t res) _
          (by rw [hk]; exact dictSet_same _ _ _)
        refine ⟨v', hv', ?_⟩
        have hg : getD0 (if (st t.value).isNone then dictSet st t.value 0 else st) k = v := by
          unfold getD0
          rw [hinit]
          rfl
        rw [hk] at hg
        omega
      · exact ih _ _ _ (by rw [dictSet_ne _ _ _ _ hk]; exact hinit)

lemma failedAt_append (t : InferenceType) (a b : List String) :
    failedAt t (a ++ b) = failedAt t a ++ failedAt t b := by
  simp [failedAt, List.filter_append]

lemma residualAfter_append (a b : List String) (ts : List InferenceType) :
    residualAfter (a ++ b) ts = residualAfter a ts ++ residualAfter b ts := by
  induction ts generalizing a b with
  | nil => rfl
  | cons t rest ih =>
    simp only [residualAfter, List.foldl_cons] at *
    rw [failedAt_append, ih]

/-- The non-numeric pass does not touch counters whose key is not among the
walked types. -/
lemma nonNumericPass_ne (ts : List InferenceType) (st : TypeStats)
    (series : List String) (k : String) (h : k ∉ ts.map InferenceType.value) :
    nonNumericPass st series ts k = st k := by
  induction ts generalizing st with
  | nil => simp [nonNumericPass]
  | cons t rest ih =>
    simp only [List.map_cons, List.mem_cons, not_or] at h
    simp only [nonNumericPass]
    rw [ih _ h.2, dictSet_ne _ _ _ _ h.1]

/-- Characterization of one counter after the non-numeric pass: each type's
counter gains the number of series values failing at that type. -/
lemma nonNumericPass_char (pre : List InferenceType) (t : InferenceType)
    (post : List InferenceType) (st : TypeStats) (series : List String)
    (nd : (((pre ++ t :: post).map InferenceType.value)).Nodup) :
    nonNumericPass st series (pre ++ t :: post) t.value
      = some (getD0 st t.value + (failedAt t series).length) := by
  induction pre generalizing st with
  | nil =>
    simp only [List.nil_append, List.map_cons, List.nodup_cons] at nd
    simp only [List.nil_append, nonNumericPass]
    rw [nonNumericPass_ne _ _ _ _ nd.1, dictSet_same]
  | cons u pre' ih =>
    have hne : t.value ≠ u.value := by
      simp only [List.cons_append, List.map_cons, List.nodup_cons, List.mem_map] at nd
      intro h
      exact nd.1 ⟨t, by simp, h⟩
    have nd' : (((pre' ++ t :: post).map InferenceType.value)).Nodup := by
      simp only [List.cons_append, List.map_cons, List.nodup_cons] at nd
      exact nd.2
    simp only [List.cons_append, nonNumericPass]
    simp only [List.append_eq] at *
    rw [ih _ nd', getD0_dictSet_ne _ _ _ _ hne]

/-- Counters never shrink along the non-numeric pass. -/
lemma nonNumericPass_mono (ts : List InferenceType) (st : TypeStats)
    (series : List String) (k : String) (v : Nat) (h : st k = some v) :
    ∃ v', nonNumericPass st series ts k = some v' ∧ v ≤ v' := by
  induction ts generalizing st v with
  | nil => exact ⟨v, h, le_refl v⟩
  | cons t rest ih =>
    simp only [nonNumericPass]
    by_cases hk : k = t.value
    · obtain ⟨v', hv', hle⟩ := ih
        (dictSet st t.value (getD0 st t.value + (failedAt t series).length)) _
        (by rw [hk]; exact dictSet_same _ _ _)
      refine ⟨v', hv', ?_⟩
      have hg : getD0 st t.value = v := by
        unfold getD0
        rw [← hk, h]
        rfl
      omega
    · exact ih _ _ (by rw [dictSet_ne _ _ _ _ hk]; exact h)

lemma dictPop_same (st : TypeStats) (k : String) : dictPop st k k = none := by
  simp [dictPop]

/-- The numeric and non-numeric type names are distinct and none of them is
`"category"`. -/
lemma numeric_values_nodup : ((inference_types_numeric.map InferenceType.value)).Nodup := by
  decide

lemma non_numeric_values_nodup :
    ((inference_types_non_numeric.map InferenceType.value)).Nodup := by
  decide

lemma numeric_value_ne_category (t : InferenceType) (h : t ∈ inference_types_numeric) :
    t.value ≠ "category" := by
  fin_cases h <;> decide

lemma non_numeric_value_ne_category (t : InferenceType)
    (h : t ∈ inference_types_non_numeric) : t.value ≠ "category" := by
  fin_cases h <;> decide

lemma numeric_value_notin_non_numeric (t : InferenceType)
    (h : t ∈ inference_types_numeric) :
    t.value ∉ inference_types_non_numeric.map InferenceType.value := by
  fin_cases h <;> decide

/-- Away from the `'category'` key, `gather_type_stats` is the numeric
cascade followed by the non-numeric pass. -/
lemma gather_stats_ne_category (mc : Option Nat) (raw : List (Option String))
    (rows : Nat) (st : TypeStats) (cat : Finset String) (k : String)
    (hk : k ≠ "category") :
    (gather_type_stats mc raw rows st cat).1 k
      = nonNumericPass (cascade st (raw.filterMap id) inference_types_numeric)
          (raw.filterMap id) inference_types_non_numeric k := by
  unfold gather_type_stats
  dsimp only
  cases mc with
  | none => exact dictPop_ne _ _ _ hk
  | some m =>
    dsimp only
    by_cases h1 : cat.card ≤ m
    · rw [if_pos h1]
      by_cases h2 : (raw.filterMap id).toFinset.card ≤ m - cat.card
      · rw [if_pos h2]
        by_cases h3 : m ≠ 0 ∧ (raw.filterMap id).toFinset.card ≤ m
            ∧ mkRat (raw.filterMap id).toFinset.card (rows + (raw.filterMap id).length)
              ≤ mkRat 1 2
        · rw [if_pos h3]
          show dictSet _ "category" 0 k = _
          rw [dictSet_ne _ _ _ _ hk]
          exact dictPop_ne _ _ _ hk
        · rw [if_neg h3]
          exact dictPop_ne _ _ _ hk
      · rw [if_neg h2]
        exact dictPop_ne _ _ _ hk
    · rw [if_neg h1]
      exact dictPop_ne _ _ _ hk

/-- The counter of a numeric type after a gather call: its previous value
(default 0) plus the failures of the cascade residual at that type. -/
lemma gather_numeric_val (mc : Option Nat) (raw : List (Option String)) (rows : Nat)
    (st : TypeStats) (cat : Finset String) (pre t post)
    (hdecomp : inference_types_numeric = pre ++ t :: post) :
    (gather_type_stats mc raw rows st cat).1 t.value
      = some (getD0 st t.value
          + (failedAt t (residualAfter (raw.filterMap id) pre)).length) := by
  have hmem : t ∈ inference_types_numeric := by
    rw [hdecomp]
    simp
  rw [gather_stats_ne_category mc raw rows st cat t.value (numeric_value_ne_category t hmem),
    nonNumericPass_ne _ _ _ _ (numeric_value_notin_non_numeric t hmem), hdecomp,
    cascade_char pre t post st _ (hdecomp ▸ numeric_values_nodup)]

/-- The counter of a non-numeric type after a gather call: its previous value
(default 0) plus the failures of the full series at that type. -/
lemma gather_non_numeric_val (mc : Option Nat) (raw : List (Option String)) (rows : Nat)
    (st : TypeStats) (cat : Finset String) (pre t post)
    (hdecomp : inference_types_non_numeric = pre ++ t :: post) :
    (gather_type_stats mc raw rows st cat).1 t.value
      = some (getD0 (cascade st (raw.filterMap id) inference_types_numeric) t.value
          + (failedAt t (raw.filterMap id)).length) := by
  have hmem : t ∈ inference_types_non_numeric := by
    rw [hdecomp]
    simp
  rw [gather_stats_ne_category mc raw rows st cat t.value
      (non_numeric_value_ne_category t hmem), hdecomp,
    nonNumericPass_char pre t post _ _ (hdecomp ▸ non_numeric_values_nodup)]

/-- A non-numeric type's counter does not depend on the numeric cascade. -/
lemma non_numeric_value_notin_numeric (t : InferenceType)
    (h : t ∈ inference_types_non_numeric) :
    t.value ∉ inference_types_numeric.map InferenceType.value := by
  fin_cases h <;> decide

/-- Keys belonging to no inference type (and distinct from `'category'`) are
untouched by a gather call. -/
lemma gather_other_ne (mc : Option Nat) (raw : List (Option String)) (rows : Nat)
    (st : TypeStats) (cat : Finset String) (k : String) (hk : k ≠ "category")
    (h1 : k ∉ inference_types_numeric.map InferenceType.value)
    (h2 : k ∉ inference_types_non_numeric.map InferenceType.value) :
    (gather_type_stats mc raw rows st cat).1 k = st k := by
  rw [gather_stats_ne_category mc raw rows st cat k hk,
    nonNumericPass_ne _ _ _ _ h2, cascade_ne _ _ _ _ h1]

/-- Away from the `'category'` key the counters gathered from a concatenated
batch equal the counters gathered from the two batches in sequence, whatever
row counts and category accumulators each call is given. -/
lemma gather_stats_append (mc : Option Nat) (a b : List (Option String))
    (r1 r2 r3 : Nat) (st : TypeStats) (cat1 cat2 cat3 : Finset String)
    (k : String) (hk : k ≠ "category") :
    (gather_type_stats mc (a ++ b) r3 st cat3).1 k
      = (gather_type_stats mc b r2 ((gather_type_stats mc a r1 st cat1).1) cat2).1 k := by
  by_cases hnum : k ∈ inference_types_numeric.map InferenceType.value
  · obtain ⟨t, hmem, hval⟩ := List.mem_map.mp hnum
    obtain ⟨pre, post, hdecomp⟩ := List.append_of_mem hmem
    subst hval
    rw [gather_numeric_val mc (a ++ b) r3 st cat3 pre t post hdecomp,
      gather_numeric_val mc b r2 _ cat2 pre t post hdecomp]
    have hfirst := gather_numeric_val mc a r1 st cat1 pre t post hdecomp
    have hg : getD0 ((gather_type_stats mc a r1 st cat1).1) t.value
        = getD0 st t.value + (failedAt t (residualAfter (a.filterMap id) pre)).length := by
      unfold getD0
      rw [hfirst]
      rfl
    rw [hg, List.filterMap_append, residualAfter_append, failedAt_append,
      List.length_append]
    exact congrArg some (by omega)
  · by_cases hnn : k ∈ inference_types_non_numeric.map InferenceType.value
    · obtain ⟨t, hmem, hval⟩ := List.mem_map.mp hnn
      obtain ⟨pre, post, hdecomp⟩ := List.append_of_mem hmem
      subst hval
      rw [gather_non_numeric_val mc (a ++ b) r3 st cat3 pre t post hdecomp,
        gather_non_numeric_val mc b r2 _ cat2 pre t post hdecomp]
      have hnotnum : t.value ∉ inference_types_numeric.map InferenceType.value :=
        non_numeric_value_notin_numeric t hmem
      have hc1 : getD0 (cascade st ((a ++ b).filterMap id) inference_types_numeric) t.value
          = getD0 st t.value := by
        unfold getD0
        rw [cascade_ne _ _ _ _ hnotnum]
      have hc2 : getD0 (cascade ((gather_type_stats mc a r1 st cat1).1)
            (b.filterMap id) inference_types_numeric) t.value
          = getD0 ((gather_type_stats mc a r1 st cat1).1) t.value := by
        unfold getD0
        rw [cascade_ne _ _ _ _ hnotnum]
      have hfirst := gather_non_numeric_val mc a r1 st cat1 pre t post hdecomp
      have hg : getD0 ((gather_type_stats mc a r1 st cat1).1) t.value
          = getD0 st t.value + (failedAt t (a.filterMap id)).length := by
        unfold getD0
        rw [hfirst]
        have : getD0 (cascade st (a.filterMap id) inference_types_numeric) t.value
            = getD0 st t.value := by
          unfold getD0
          rw [cascade_ne _ _ _ _ hnotnum]
        rw [this]
        rfl
      rw [hc1, hc2, hg, List.filterMap_append, failedAt_append, List.length_append]
      exact congrArg some (by omega)
    · rw [gather_other_ne mc (a ++ b) r3 st cat3 k hk hnum hnn,
        gather_other_ne mc b r2 _ cat2 k hk hnum hnn,
        gather_other_ne mc a r1 st cat1 k hk hnum hnn]

/-- Counter monotonicity of one gather call away from `'category'`. -/
lemma gather_stats_mono (mc : Option Nat) (raw : List (Option String)) (rows : Nat)
    (st : TypeStats) (cat : Finset String) (k : String) (hk : k ≠ "category")
    (v : Nat) (h : st k = some v) :
    ∃ v', (gather_type_stats mc raw rows st cat).1 k = some v' ∧ v ≤ v' := by
  rw [gather_stats_ne_category mc raw rows st cat k hk]
  obtain ⟨v1, hv1, hle1⟩ := cascade_mono inference_types_numeric st (raw.filterMap id) k v h
  obtain ⟨v2, hv2, hle2⟩ := nonNumericPass_mono inference_types_non_numeric _
    (raw.filterMap id) k v1 hv1
  exact ⟨v2, hv2, le_trans hle1 hle2⟩

/-- Full characterization of the category step of one gather call: the
`'category'` counter is re-granted (at 0) exactly when the batch uniques fit
under the remaining cap and the batch unique ratio is at most one half; the
accumulator absorbs the batch uniques exactly when they fit under the
remaining cap, whether or not the ratio test passes. -/
lemma gather_category_char (m : Nat) (raw : List (Option String)) (rows : Nat)
    (st : TypeStats) (cat : Finset String) :
    ((gather_type_stats (some m) raw rows st cat).1 "category"
      = if cat.card ≤ m ∧ (raw.filterMap id).toFinset.card ≤ m - cat.card ∧ m ≠ 0
          ∧ (raw.filterMap id).toFinset.card ≤ m
          ∧ mkRat (raw.filterMap id).toFinset.card (rows + (raw.filterMap id).length)
            ≤ mkRat 1 2
        then some 0 else none)
    ∧ ((gather_type_stats (some m) raw rows st cat).2
      = if cat.card ≤ m ∧ (raw.filterMap id).toFinset.card ≤ m - cat.card
        then cat ∪ (raw.filterMap id).toFinset else cat) := by
  unfold gather_type_stats
  dsimp only
  by_cases h1 : cat.card ≤ m
  · rw [if_pos h1]
    by_cases h2 : (raw.filterMap id).toFinset.card ≤ m - cat.card
    · rw [if_pos h2]
      by_cases h3 : m ≠ 0 ∧ (raw.filterMap id).toFinset.card ≤ m
          ∧ mkRat (raw.filterMap id).toFinset.card (rows + (raw.filterMap id).length)
            ≤ mkRat 1 2
      · rw [if_pos h3]
        refine ⟨?_, ?_⟩
        · rw [if_pos ⟨h1, h2, h3⟩]
          dsimp only
          exact dictSet_same _ _ _
        · rw [if_pos ⟨h1, h2⟩]
      · rw [if_neg h3]
        refine ⟨?_, ?_⟩
        · rw [if_neg (by tauto)]
          dsimp only
          exact dictPop_same _ _
        · rw [if_pos ⟨h1, h2⟩]
    · rw [if_neg h2]
      refine ⟨?_, ?_⟩
      · rw [if_neg (by tauto)]
        dsimp only
        exact dictPop_same _ _
      · rw [if_neg (by tauto)]
  · rw [if_neg h1]
    refine ⟨?_, ?_⟩
    · rw [if_neg (by tauto)]
      dsimp only
      exact dictPop_same _ _
    · rw [if_neg (by tauto)]

/-- A gather step leaves the running row count alone. -/
lemma gatherStep_rows (mc : Option Nat) (df : List (String → Option String))
    (s : InferState) (col : String) :
    (gatherStep mc df s col).rows_processed = s.rows_processed := rfl

/-- The gather fold leaves the running row count alone. -/
lemma foldl_gatherStep_rows (mc : Option Nat) (df : List (String → Option String))
    (cols : List String) (st : InferState) :
    (cols.foldl (gatherStep mc df) st).rows_processed = st.rows_processed := by
  induction cols generalizing st with
  | nil => rfl
  | cons c rest ih => rw [List.foldl_cons, ih, gatherStep_rows]

/-- `infer_data_types` advances the running row count by the batch length. -/
lemma infer_rows (mc : Option Nat) (cols : List String) (st : InferState)
    (df : List (String → Option String)) :
    (infer_data_types mc cols st df).rows_processed = st.rows_processed + df.length := by
  unfold infer_data_types
  dsimp only
  rw [foldl_gatherStep_rows]

/-- Columns outside the fold are untouched. -/
lemma foldl_gatherStep_ne (mc : Option Nat) (df : List (String → Option String))
    (cols : List String) (st : InferState) (col : String) (h : col ∉ cols) :
    ((cols.foldl (gatherStep mc df) st).column_types col = st.column_types col)
      ∧ ((cols.foldl (gatherStep mc df) st).category_values col
        = st.category_values col) := by
  induction cols generalizing st with
  | nil => exact ⟨rfl, rfl⟩
  | cons c rest ih =>
    simp only [List.mem_cons, not_or] at h
    rw [List.foldl_cons]
    obtain ⟨ih1, ih2⟩ := ih _ h.2
    refine ⟨?_, ?_⟩
    · rw [ih1]
      show (if col = c then _ else st.column_types col) = st.column_types col
      rw [if_neg h.1]
    · rw [ih2]
      show (if col = c then _ else st.category_values col) = st.category_values col
      rw [if_neg h.1]

/-- With pairwise distinct column names, each column's gathered statistics
in a processed batch come from a single `gather_type_stats` call on its
pre-batch state and the pre-batch row count. -/
lemma foldl_gatherStep_mem (mc : Option Nat) (df : List (String → Option String))
    (cols : List String) (st : InferState) (col : String) (nd : cols.Nodup)
    (h : col ∈ cols) :
    ((cols.foldl (gatherStep mc df) st).column_types col
      = (gather_type_stats mc (colOf df col) st.rows_processed
          (st.column_types col) (st.category_values col)).1)
    ∧ ((cols.foldl (gatherStep mc df) st).category_values col
      = (gather_type_stats mc (colOf df col) st.rows_processed
          (st.column_types col) (st.category_values col)).2) := by
  induction cols generalizing st with
  | nil => cases h
  | cons c rest ih =>
    rw [List.foldl_cons]
    rcases List.mem_cons.mp h with hc | hc
    · subst hc
      have hnotin : col ∉ rest := (List.nodup_cons.mp nd).1
      obtain ⟨h1, h2⟩ := foldl_gatherStep_ne mc df rest (gatherStep mc df st col) col hnotin
      rw [h1, h2]
      constructor
      · show (if col = col then _ else _) = _
        rw [if_pos rfl]
      · show (if col = col then _ else _) = _
        rw [if_pos rfl]
    · have hne : col ≠ c := by
        intro hcol
        subst hcol
        exact (List.nodup_cons.mp nd).1 hc
      obtain ⟨h1, h2⟩ := ih (gatherStep mc df st c) (List.nodup_cons.mp nd).2 hc
      rw [h1, h2]
      have e1 : (gatherStep mc df st c).column_types col = st.column_types col := by
        show (if col = c then _ else _) = _
        rw [if_neg hne]
      have e2 : (gatherStep mc df st c).category_values col = st.category_values col := by
        show (if col = c then _ else _) = _
        rw [if_neg hne]
      rw [e1, e2, gatherStep_rows]
      exact ⟨rfl, rfl⟩

lemma colOf_append (a b : List (String → Option String)) (col : String) :
    colOf (a ++ b) col = colOf a col ++ colOf b col := by
  simp [colOf]

/-- `infer_data_types` on one column of a batch, with distinct column names:
a single gather call from the pre-batch state. -/
lemma infer_column_types_mem (mc : Option Nat) (cols : List String) (st : InferState)
    (df : List (String → Option String)) (col : String) (nd : cols.Nodup)
    (h : col ∈ cols) :
    ((infer_data_types mc cols st df).column_types col
      = (gather_type_stats mc (colOf df col) st.rows_processed
          (st.column_types col) (st.category_values col)).1)
    ∧ ((infer_data_types mc cols st df).category_values col
      = (gather_type_stats mc (colOf df col) st.rows_processed
          (st.column_types col) (st.category_values col)).2) :=
  foldl_gatherStep_mem mc df cols st col nd h

lemma infer_column_types_ne (mc : Option Nat) (cols : List String) (st : InferState)
    (df : List (String → Option String)) (col : String) (h : col ∉ cols) :
    ((infer_data_types mc cols st df).column_types col = st.column_types col)
      ∧ ((infer_data_types mc cols st df).category_values col
        = st.category_values col) :=
  foldl_gatherStep_ne mc df cols st col h

/-- The gather fold is counter-monotone away from the `'category'` key (no
distinctness of column names needed). -/
lemma foldl_gatherStep_mono (mc : Option Nat) (df : List (String → Option String))
    (cols : List String) (st : InferState) (col k : String) (hk : k ≠ "category")
    (v : Nat) (h : (st.column_types col) k = some v) :
    ∃ v', ((cols.foldl (gatherStep mc df) st).column_types col) k = some v' ∧ v ≤ v' := by
  induction cols generalizing st v with
  | nil => exact ⟨v, h, le_refl v⟩
  | cons c rest ih =>
    rw [List.foldl_cons]
    by_cases hc : col = c
    · subst hc
      have hstep : ((gatherStep mc df st col).column_types col) k
          = (gather_type_stats mc (colOf df col) st.rows_processed
            (st.column_types col) (st.category_values col)).1 k := by
        dsimp only [gatherStep]
        rw [if_pos rfl]
      obtain ⟨v1, hv1, hle1⟩ := gather_stats_mono mc (colOf df col) st.rows_processed
        (st.column_types col) (st.category_values col) k hk v h
      obtain ⟨v2, hv2, hle2⟩ := ih (gatherStep mc df st col) v1 (by rw [hstep]; exact hv1)
      exact ⟨v2, hv2, le_trans hle1 hle2⟩
    · have hstep : ((gatherStep mc df st c).column_types col) k
          = (st.column_types col) k := by
        dsimp only [gatherStep]
        rw [if_neg hc]
      exact ih (gatherStep mc df st c) v (by rw [hstep]; exact h)

lemma residualAfter_snoc (res : List String) (pre : List InferenceType)
    (t : InferenceType) :
    residualAfter res (pre ++ [t]) = failedAt t (residualAfter res pre) := by
  simp [residualAfter, List.foldl_append]

lemma failedAt_length_le (t : InferenceType) (l : List String) :
    (failedAt t l).length ≤ l.length :=
  List.length_filter_le _ l

/-- Adjacent numeric types: one gather call preserves the non-increasing
relation between their counters, because the broader type's new failures are
drawn from the residual the narrower type produced. -/
lemma gather_numeric_adjacent (mc : Option Nat) (raw : List (Option String))
    (rows : Nat) (st : TypeStats) (cat : Finset String)
    (pre : List InferenceType) (t t' : InferenceType) (post : List InferenceType)
    (hdecomp : inference_types_numeric = pre ++ t :: t' :: post)
    (hch : getD0 st t'.value ≤ getD0 st t.value) :
    getD0 ((gather_type_stats mc raw rows st cat).1) t'.value
      ≤ getD0 ((gather_type_stats mc raw rows st cat).1) t.value := by
  have hdec1 : inference_types_numeric = pre ++ t :: (t' :: post) := hdecomp
  have hdec2 : inference_types_numeric = (pre ++ [t]) ++ t' :: post := by
    rw [hdecomp]
    simp
  have h1 := gather_numeric_val mc raw rows st cat pre t (t' :: post) hdec1
  have h2 := gather_numeric_val mc raw rows st cat (pre ++ [t]) t' post hdec2
  have g1 : getD0 ((gather_type_stats mc raw rows st cat).1) t.value
      = getD0 st t.value + (failedAt t (residualAfter (raw.filterMap id) pre)).length := by
    unfold getD0
    rw [h1]
    rfl
  have g2 : getD0 ((gather_type_stats mc raw rows st cat).1) t'.value
      = getD0 st t'.value
        + (failedAt t' (residualAfter (raw.filterMap id) (pre ++ [t]))).length := by
    unfold getD0
    rw [h2]
    rfl
  rw [g1, g2, residualAfter_snoc]
  have hle : (failedAt t' (failedAt t (residualAfter (raw.filterMap id) pre))).length
      ≤ (failedAt t (residualAfter (raw.filterMap id) pre)).length :=
    failedAt_length_le _ _
  omega

/-- One gather call preserves the numeric counter chain. -/
lemma gather_chain_preserved (mc : Option Nat) (raw : List (Option String))
    (rows : Nat) (st : TypeStats) (cat : Finset String)
    (h : numericCounterChain st) :
    numericCounterChain ((gather_type_stats mc raw rows st cat).1) := by
  obtain ⟨h1, h2, h3, h4, h5, h6, h7⟩ := h
  refine ⟨?_, ?_, ?_, ?_, ?_, ?_, ?_⟩
  · exact gather_numeric_adjacent mc raw rows st cat [] .BOOL .INT8
      [.INT16, .INT32, .INT64, .FLOAT32, .FLOAT64, .COMPLEX] rfl h1
  · exact gather_numeric_adjacent mc raw rows st cat [.BOOL] .INT8 .INT16
      [.INT32, .INT64, .FLOAT32, .FLOAT64, .COMPLEX] rfl h2
  · exact gather_numeric_adjacent mc raw rows st cat [.BOOL, .INT8] .INT16 .INT32
      [.INT64, .FLOAT32, .FLOAT64, .COMPLEX] rfl h3
  · exact gather_numeric_adjacent mc raw rows st cat [.BOOL, .INT8, .INT16] .INT32 .INT64
      [.FLOAT32, .FLOAT64, .COMPLEX] rfl h4
  · exact gather_numeric_adjacent mc raw rows st cat [.BOOL, .INT8, .INT16, .INT32]
      .INT64 .FLOAT32 [.FLOAT64, .COMPLEX] rfl h5
  · exact gather_numeric_adjacent mc raw rows st cat
      [.BOOL, .INT8, .INT16, .INT32, .INT64] .FLOAT32 .FLOAT64 [.COMPLEX] rfl h6
  · exact gather_numeric_adjacent mc raw rows st cat
      [.BOOL, .INT8, .INT16, .INT32, .INT64, .FLOAT32] .FLOAT64 .COMPLEX [] rfl h7

/-- Any sequence of gather calls preserves the numeric counter chain. -/
lemma gatherSeq_chain (mc : Option Nat) (batches : List (List (Option String) × Nat))
    (st : TypeStats) (cat : Finset String) (h : numericCounterChain st) :
    numericCounterChain ((gatherSeq mc batches st cat).1) := by
  induction batches generalizing st cat with
  | nil => exact h
  | cons b rest ih =>
    exact ih _ _ (gather_chain_preserved mc b.1 b.2 st cat h)

/-- Friendly type names identify the inference type. -/
lemma value_injective (a b : InferenceType) (h : a.value = b.value) : a = b := by
  revert h
  revert a b
  decide

lemma mem_inference_types_all (t : InferenceType) : t ∈ inference_types_all := by
  cases t <;> decide

/-- Membership in the candidates fold. -/
lemma candidates_foldl_mem (ts : TypeStats) (tol : Tolerance)
    (l : List InferenceType) (acc : Finset String) (s : String) :
    (s ∈ l.foldl
      (fun candidates dtype =>
        if ((ts dtype.value).any fun v => v ≤ get_tolerance tol dtype.value)
            ∨ dtype = InferenceType.OBJECT
        then insert dtype.value candidates
        else candidates) acc)
    ↔ s ∈ acc
      ∨ ∃ t, t ∈ l
          ∧ (((ts t.value).any fun v => v ≤ get_tolerance tol t.value) = true
            ∨ t = InferenceType.OBJECT)
          ∧ t.value = s := by
  induction l generalizing acc with
  | nil => simp
  | cons t rest ih =>
    rw [List.foldl_cons]
    by_cases hc : ((ts t.value).any fun v => v ≤ get_tolerance tol t.value) = true
        ∨ t = InferenceType.OBJECT
    · rw [if_pos hc, ih]
      simp only [Finset.mem_insert, List.mem_cons]
      constructor
      · rintro (⟨hs | hs⟩ | ⟨u, hu1, hu2, hu3⟩)
        · exact Or.inr ⟨t, Or.inl rfl, hc, hs.symm⟩
        · exact Or.inl hs
        · exact Or.inr ⟨u, Or.inr hu1, hu2, hu3⟩
      · rintro (hs | ⟨u, hu1 | hu1, hu2, hu3⟩)
        · exact Or.inl (Or.inr hs)
        · exact Or.inl (Or.inl (by rw [hu1] at hu3; exact hu3.symm))
        · exact Or.inr ⟨u, hu1, hu2, hu3⟩
    · rw [if_neg hc, ih]
      simp only [List.mem_cons]
      constructor
      · rintro (hs | ⟨u, hu1, hu2, hu3⟩)
        · exact Or.inl hs
        · exact Or.inr ⟨u, Or.inr hu1, hu2, hu3⟩
      · rintro (hs | ⟨u, hu1 | hu1, hu2, hu3⟩)
        · exact Or.inl hs
        · exact absurd (hu1 ▸ hu2) hc
        · exact Or.inr ⟨u, hu1, hu2, hu3⟩

/-- On the Object short-circuit, `apply_series` threads the exceptions
through untouched. -/
lemma apply_series_object (name : String) (data : List (Option String))
    (cats : Option (Finset String)) (exc : Option (List RowExc)) :
    (apply_series name data InferenceType.OBJECT cats exc).2 = exc := by
  unfold apply_series
  rw [if_pos rfl]

/-- Away from the Object short-circuit, `apply_series` returns an exceptions
series with one mapping per input cell. -/
lemma apply_series_some (name : String) (data : List (Option String))
    (dtype : InferenceType) (cats : Option (Finset String))
    (exc : Option (List RowExc)) (ht : dtype ≠ InferenceType.OBJECT)
    (hshape : exc = none ∨ ∃ l, exc = some l ∧ l.length = data.length) :
    ∃ l1, (apply_series name data dtype cats exc).2 = some l1
      ∧ l1.length = data.length := by
  unfold apply_series
  rw [if_neg ht]
  refine ⟨_, rfl, ?_⟩
  rw [List.length_zipWith, List.length_zip]
  rcases hshape with h | ⟨l, hl, hlen⟩
  · subst h
    simp [convertColumn]
  · subst hl
    simp [convertColumn, hlen]


lemma getD_replicate (n : Nat) (x : RowExc) (i : Nat) (d : RowExc) :
    (List.replicate n x).getD i d = if i < n then x else d := by
  induction n generalizing i with
  | zero => simp [List.getD]
  | succ m ih =>
    cases i with
    | zero => simp [List.replicate, List.getD]
    | succ j =>
      simp only [List.replicate, List.getD_cons_succ, ih]
      by_cases hj : j < m
      · rw [if_pos hj, if_pos (by omega)]
      · rw [if_neg hj, if_neg (by omega)]

/-- The starting exceptions row read by `apply_series` agrees with `excEntry`
whenever the supplied series is well-shaped. -/
lemma exc0_entry (data : List (Option String)) (exc : Option (List RowExc))
    (hshape : exc = none ∨ ∃ l, exc = some l ∧ l.length = data.length)
    (i : Nat) (k : String) :
    ((exc.getD (List.replicate data.length emptyRowExc)).getD i emptyRowExc) k
      = excEntry exc i k := by
  rcases hshape with h | ⟨l, hl, hlen⟩
  · subst h
    rw [Option.getD_none, getD_replicate]
    by_cases hi : i < data.length
    · rw [if_pos hi]
      rfl
    · rw [if_neg hi]
      rfl
  · subst hl
    rfl

/-- Pointwise description of the zip-with update inside `apply_series`. -/
lemma zipWith_update_entry (dtype : InferenceType) (name : String) :
    ∀ (data : List (Option String)) (exc0 : List RowExc),
    exc0.length = data.length → ∀ (i : Nat) (k : String),
    ((List.zipWith
        (fun (rawConv : Option String × Option CellValue) (e : RowExc) =>
          match rawConv with
          | (some raw, none) => fun k => if k = name then some raw else e k
          | _ => e)
        (data.zip (convertColumn dtype data)) exc0).getD i emptyRowExc) k
      = match data.getD i none with
        | some raw =>
          if (convertCell dtype raw).isNone then
            (if k = name then some raw else (exc0.getD i emptyRowExc) k)
          else (exc0.getD i emptyRowExc) k
        | none => (exc0.getD i emptyRowExc) k := by
  intro data
  induction data with
  | nil =>
    intro exc0 hlen i k
    have : exc0 = [] := List.length_eq_zero.mp (by simpa using hlen)
    subst this
    simp [convertColumn, List.getD]
  | cons d ds ih =>
    intro exc0 hlen i k
    rcases exc0 with _ | ⟨e, es⟩
    · simp at hlen
    · have hlen' : es.length = ds.length := by simpa using hlen
      rcases i with _ | j
      · -- head row
        rcases hd : d with _ | raw
        · simp only [convertColumn, List.map_cons, List.zip_cons_cons,
            List.zipWith_cons_cons, List.getD_cons_zero, Option.none_bind]
        · simp only [convertColumn, List.map_cons, List.zip_cons_cons,
            List.zipWith_cons_cons, List.getD_cons_zero, Option.some_bind]
          rcases hc : convertCell dtype raw with _ | val
          · simp [hc]
          · simp [hc]
      · -- tail rows
        simp only [convertColumn, List.map_cons, List.zip_cons_cons,
          List.zipWith_cons_cons, List.getD_cons_succ]
        exact ih es hlen' j k

/-- Pointwise description of the exceptions produced by one `apply_series`
call on a non-Object target: the processed column's key gains the raw value
at failing non-NA positions and keeps the incoming entry elsewhere; other
keys are untouched. -/
lemma apply_series_entry (name : String) (data : List (Option String))
    (dtype : InferenceType) (cats : Option (Finset String))
    (exc : Option (List RowExc)) (ht : dtype ≠ InferenceType.OBJECT)
    (hshape : exc = none ∨ ∃ l, exc = some l ∧ l.length = data.length)
    (i : Nat) (k : String) :
    excEntry (apply_series name data dtype cats exc).2 i k
      = match data.getD i none with
        | some raw =>
          if (convertCell dtype raw).isNone then
            (if k = name then some raw else excEntry exc i k)
          else excEntry exc i k
        | none => excEntry exc i k := by
  unfold apply_series
  rw [if_neg ht]
  show ((List.zipWith _ (data.zip (convertColumn dtype data))
      (exc.getD (List.replicate data.length emptyRowExc))).getD i emptyRowExc) k = _
  rw [zipWith_update_entry dtype name data _ (by
      rcases hshape with h | ⟨l, hl, hlen⟩
      · subst h
        simp
      · subst hl
        simpa using hlen) i k]
  rw [exc0_entry data exc hshape i k]

lemma colOf_length (df : List (String → Option String)) (c : String) :
    (colOf df c).length = df.length := by
  simp [colOf]

lemma colOf_getD (df : List (String → Option String)) (c : String) (i : Nat) :
    (colOf df c).getD i none = (df.getD i (fun _ => none)) c := by
  induction df generalizing i with
  | nil => simp [colOf, List.getD]
  | cons r rs ih =>
    rcases i with _ | j
    · simp [colOf]
    · simpa [colOf] using ih j

lemma specExceptionEntry_nil (df : List (String → Option String)) (i : Nat) (k : String) :
    specExceptionEntry [] df i k = none := rfl

lemma specExceptionEntry_cons_self (c : String) (t : InferenceType)
    (cats : Option (Finset String)) (rest : List PreferredType)
    (df : List (String → Option String)) (i : Nat) :
    specExceptionEntry ((c, t, cats) :: rest) df i c
      = if t = InferenceType.OBJECT then none
        else
          match (df.getD i (fun _ => none)) c with
          | none => none
          | some raw => if (convertCell t raw).isNone then some raw else none := by
  unfold specExceptionEntry
  rw [List.find?_cons_of_pos _ (by simp)]

lemma specExceptionEntry_cons_ne (c : String) (t : InferenceType)
    (cats : Option (Finset String)) (rest : List PreferredType)
    (df : List (String → Option String)) (i : Nat) (k : String) (hk : k ≠ c) :
    specExceptionEntry ((c, t, cats) :: rest) df i k
      = specExceptionEntry rest df i k := by
  unfold specExceptionEntry
  rw [List.find?_cons_of_neg _ (by simp [hk.symm])]

lemma specExceptionEntry_notin (preferred : List PreferredType)
    (df : List (String → Option String)) (i : Nat) (k : String)
    (h : k ∉ preferred.map fun p => p.1) :
    specExceptionEntry preferred df i k = none := by
  unfold specExceptionEntry
  rw [List.find?_eq_none.mpr]
  intro p hp
  simp only [decide_eq_true_eq]
  intro hpk
  exact h (List.mem_map.mpr ⟨p, hp, hpk⟩)

/-- Master characterization of the per-column exception threading of
`load_columns`: the result is `None` exactly when nothing was supplied and
every column short-circuits, it is row-aligned with the frame otherwise, and
each row's mapping holds exactly the failure entries described by
`specExceptionEntry` over whatever the caller supplied. -/
lemma load_columns_char (df : List (String → Option String)) :
    ∀ (preferred : List PreferredType) (exc : Option (List RowExc)),
    (preferred.map fun p => p.1).Nodup →
    (exc = none ∨ ∃ l, exc = some l ∧ l.length = df.length) →
    (((load_columns df preferred exc).2 = none)
        ↔ (exc = none ∧ ∀ p ∈ preferred, p.2.1 = InferenceType.OBJECT))
    ∧ ((load_columns df preferred exc).2 = none
        ∨ ∃ l', (load_columns df preferred exc).2 = some l' ∧ l'.length = df.length)
    ∧ (∀ i k, excEntry (load_columns df preferred exc).2 i k
        = match specExceptionEntry preferred df i k with
          | some raw => some raw
          | none => excEntry exc i k) := by
  intro preferred
  induction preferred with
  | nil =>
    intro exc nd hshape
    refine ⟨by simp [load_columns], ?_, ?_⟩
    · rcases hshape with h | ⟨l, hl, hlen⟩
      · exact Or.inl (by rw [load_columns, h])
      · exact Or.inr ⟨l, by rw [load_columns, hl], hlen⟩
    · intro i k
      rw [specExceptionEntry_nil]
      rfl
  | cons p rest ih =>
    obtain ⟨c, t, cats⟩ := p
    intro exc nd hshape
    have ndparts : (c ∉ rest.map fun p => p.1) ∧ (rest.map fun p => p.1).Nodup := by
      rw [List.map_cons, List.nodup_cons] at nd
      exact nd
    obtain ⟨hcnotin, ndrest⟩ := ndparts
    by_cases ht : t = InferenceType.OBJECT
    · subst ht
      have hcell : (apply_series c (colOf df c) InferenceType.OBJECT
          (if InferenceType.OBJECT = InferenceType.CATEGORY then cats else none) exc).2
          = exc := apply_series_object _ _ _ _
      have hres : (load_columns df ((c, InferenceType.OBJECT, cats) :: rest) exc).2
          = (load_columns df rest exc).2 := by
        rw [load_columns, hcell]
      obtain ⟨ih1, ih2, ih3⟩ := ih exc ndrest hshape
      refine ⟨?_, ?_, ?_⟩
      · rw [hres, ih1]
        constructor
        · rintro ⟨he, hall⟩
          refine ⟨he, ?_⟩
          intro q hq
          rcases List.mem_cons.mp hq with hq | hq
          · rw [hq]
          · exact hall q hq
        · rintro ⟨he, hall⟩
          exact ⟨he, fun q hq => hall q (List.mem_cons_of_mem _ hq)⟩
      · rw [hres]
        exact ih2
      · intro i k
        rw [hres, ih3 i k]
        by_cases hk : k = c
        · subst hk
          rw [specExceptionEntry_cons_self, if_pos rfl,
            specExceptionEntry_notin rest df i k hcnotin]
        · rw [specExceptionEntry_cons_ne _ _ _ _ _ _ _ hk]
    · have hshape' : exc = none ∨ ∃ l, exc = some l ∧ l.length = (colOf df c).length := by
        rcases hshape with h | ⟨l, hl, hlen⟩
        · exact Or.inl h
        · exact Or.inr ⟨l, hl, by rw [hlen, colOf_length]⟩
      obtain ⟨l1, hl1, hlen1⟩ := apply_series_some c (colOf df c) t
        (if t = InferenceType.CATEGORY then cats else none) exc ht hshape'
      have hres : (load_columns df ((c, t, cats) :: rest) exc).2
          = (load_columns df rest (apply_series c (colOf df c) t
              (if t = InferenceType.CATEGORY then cats else none) exc).2).2 := by
        rw [load_columns]
      have hshape1 : (apply_series c (colOf df c) t
          (if t = InferenceType.CATEGORY then cats else none) exc).2 = none
          ∨ ∃ l, (apply_series c (colOf df c) t
            (if t = InferenceType.CATEGORY then cats else none) exc).2 = some l
            ∧ l.length = df.length := by
        exact Or.inr ⟨l1, hl1, by rw [hlen1, colOf_length]⟩
      obtain ⟨ih1, ih2, ih3⟩ := ih _ ndrest hshape1
      refine ⟨?_, ?_, ?_⟩
      · rw [hres, ih1]
        constructor
        · rintro ⟨he, _⟩
          rw [hl1] at he
          cases he
        · rintro ⟨_, hall⟩
          exact absurd (hall _ (List.mem_cons_self _ _)) ht
      · rw [hres]
        exact ih2
      · intro i k
        rw [hres, ih3 i k]
        have happ := apply_series_entry c (colOf df c) t
          (if t = InferenceType.CATEGORY then cats else none) exc ht hshape' i k
        by_cases hk : k = c
        · subst hk
          rw [specExceptionEntry_notin rest df i k hcnotin, happ,
            specExceptionEntry_cons_self, if_neg ht, ← colOf_getD]
          rcases hX : (colOf df k).getD i none with _ | raw
          · rfl
          · rcases hc : (convertCell t raw).isNone with _ | _
            · simp [hc]
            · simp [hc, if_pos rfl]
        · rw [specExceptionEntry_cons_ne _ _ _ _ _ _ _ hk, happ]
          rcases hX : (colOf df c).getD i none with _ | raw
          · rfl
          · rcases hc : (convertCell t raw).isNone with _ | _
            · simp [hc]
            · simp [hc, if_neg hk]

lemma do_work_loop_eval (status : String) (position : Nat) :
    do_work_loop false 1 status position [] = ([2, 4, 8, 16, 32, 64], status, position) := by
  simp [do_work_loop]

lemma do_work_loop_ready (status : String) (position : Nat) :
    do_work_loop true 1 status position [] = ([], "complete", position) := by
  simp [do_work_loop]

/-- C1: `get_preferred_type` evaluated at the failing inputs: a candidate set
from inference carrying `'timedelta'` or `'datetime'` (the friendly names)
never selects them, because the preference list spells them as the pandas
dtypes `'timedelta[ns]'` / `'datetime64[ns]'`; `'category'` or `'object'`
wins instead. -/
theorem C1_code_eval :
    get_preferred_type {"timedelta", "object"} = "object"
    ∧ get_preferred_type {"datetime", "object"} = "object"
    ∧ get_preferred_type {"datetime", "category", "object"} = "category" := by
  decide

/-- C2 counterexample: `convert_type` with target `Object` is not the
identity; it raises `ValueError("Unsupported data type: object")`. -/
theorem C2_counterexample :
    convert_type [some "a"] InferenceType.OBJECT none
      = Except.error "Unsupported data type: object" := by
  rfl

/-- C2 amended: for every supported target other than `Object`,
`convert_type` returns the converted column (same length, parse failures as
nulls) and never raises; the Object identity lives in `apply_series`, whose
dtype short-circuit returns the column and exceptions untouched. -/
theorem C2_amended :
    (∀ (series : List (Option String)) (t : InferenceType)
        (cats : Option (Finset String)), t ≠ InferenceType.OBJECT →
        convert_type series t cats = Except.ok (convertColumn t series)
          ∧ (convertColumn t series).length = series.length)
    ∧ (∀ (name : String) (data : List (Option String))
          (cats : Option (Finset String)) (exc : Option (List RowExc)),
        apply_series name data InferenceType.OBJECT cats exc
          = (data.map (Option.map CellValue.s), exc)) := by
  constructor
  · intro series t cats ht
    exact ⟨convert_type_supported series t cats ht, by simp [convertColumn]⟩
  · intro name data cats exc
    unfold apply_series
    rw [if_pos rfl]

theorem C2_witness :
    InferenceType.FLOAT64 ≠ InferenceType.OBJECT
    ∧ (convert_type [some "a", none] InferenceType.FLOAT64 none
        = Except.ok (convertColumn InferenceType.FLOAT64 [some "a", none])
      ∧ (convertColumn InferenceType.FLOAT64 [some "a", none]).length = 2) :=
  ⟨by decide, C2_amended.1 [some "a", none] InferenceType.FLOAT64 none (by decide)⟩

/-- C3: the significant-digit counter does not strip signs: any string with
a character besides digits and the decimal point (after cutting an exponent
suffix) counts 0 significant digits, so `"-3.1456789"` passes the Float32
guard and converts, while its positive counterpart counts 8 digits and is
nulled. -/
theorem C3_code_eval :
    count_significant_digits "-3.1456789" = 0
    ∧ convert_to_float_cell InferenceType.FLOAT32 "-3.1456789"
        = some (CellValue.f (Rat.divInt (-31456789) 10000000))
    ∧ count_significant_digits "3.1456789" = 8
    ∧ convert_to_float_cell InferenceType.FLOAT32 "3.1456789" = none := by
  decide

/-- C4 counterexample: processing `["a","b","c","d"]` then `["e"]` grants the
`'category'` counter (batch ratio 1/5), while the concatenated batch does not
(ratio 5/5); with `max_categories = 3`, splitting `["a","b"]` / `["c","d"]`
also leaves different accumulated category values than the single batch. -/
theorem C4_counterexample :
    (((infer_data_types (some 100) ["col"]
          (infer_data_types (some 100) ["col"] initState
            [constRow "a", constRow "b", constRow "c", constRow "d"])
          [constRow "e"]).column_types "col") "category" = some 0
      ∧ ((infer_data_types (some 100) ["col"] initState
          ([constRow "a", constRow "b", constRow "c", constRow "d"]
            ++ [constRow "e"])).column_types "col") "category" = none)
    ∧ ((infer_data_types (some 3) ["col"]
          (infer_data_types (some 3) ["col"] initState [constRow "a", constRow "b"])
          [constRow "c", constRow "d"]).category_values "col" = {"a", "b"}
      ∧ (infer_data_types (some 3) ["col"] initState
          ([constRow "a", constRow "b"] ++ [constRow "c", constRow "d"])).category_values
            "col" = ∅) := by
  decide

/-- C4 amended: over distinct column names, batching is equivalent for the
row position and for every failure counter except the `'category'` key; the
category counter and the category-value accumulator may differ between the
two executions. -/
theorem C4_amended (mc : Option Nat) (cols : List String) (st : InferState)
    (A B : List (String → Option String)) (nd : cols.Nodup) :
    ((infer_data_types mc cols (infer_data_types mc cols st A) B).rows_processed
        = (infer_data_types mc cols st (A ++ B)).rows_processed)
    ∧ ∀ col k, k ≠ "category" →
        ((infer_data_types mc cols (infer_data_types mc cols st A) B).column_types col) k
          = ((infer_data_types mc cols st (A ++ B)).column_types col) k := by
  constructor
  · rw [infer_rows, infer_rows, infer_rows, List.length_append]
    omega
  · intro col k hk
    by_cases hmem : col ∈ cols
    · obtain ⟨hA1, hA2⟩ := infer_column_types_mem mc cols st A col nd hmem
      obtain ⟨hB1, _⟩ := infer_column_types_mem mc cols
        (infer_data_types mc cols st A) B col nd hmem
      obtain ⟨hAB1, _⟩ := infer_column_types_mem mc cols st (A ++ B) col nd hmem
      rw [hB1, hA1, hA2, hAB1, colOf_append]
      exact (gather_stats_append mc (colOf A col) (colOf B col)
        st.rows_processed (infer_data_types mc cols st A).rows_processed
        st.rows_processed (st.column_types col) (st.category_values col)
        ((gather_type_stats mc (colOf A col) st.rows_processed
          (st.column_types col) (st.category_values col)).2)
        (st.category_values col) k hk).symm
    · obtain ⟨hA1, _⟩ := infer_column_types_ne mc cols st A col hmem
      obtain ⟨hB1, _⟩ := infer_column_types_ne mc cols
        (infer_data_types mc cols st A) B col hmem
      obtain ⟨hAB1, _⟩ := infer_column_types_ne mc cols st (A ++ B) col hmem
      rw [hB1, hA1, hAB1]

theorem C4_witness :
    (["col"] : List String).Nodup
    ∧ (((infer_data_types (some 100) ["col"]
          (infer_data_types (some 100) ["col"] initState [constRow "1"])
          [constRow "2"]).rows_processed
        = (infer_data_types (some 100) ["col"] initState
            ([constRow "1"] ++ [constRow "2"])).rows_processed)
      ∧ ∀ col k, k ≠ "category" →
          ((infer_data_types (some 100) ["col"]
            (infer_data_types (some 100) ["col"] initState [constRow "1"])
            [constRow "2"]).column_types col) k
            = ((infer_data_types (some 100) ["col"] initState
                ([constRow "1"] ++ [constRow "2"])).column_types col) k) :=
  ⟨by decide, C4_amended (some 100) ["col"] initState [constRow "1"] [constRow "2"]
    (by decide)⟩

/-- C5 counterexample: with `max_categories = 1`, accumulated values
`{"a"}`, batch `["a"]` and one prior row, the claim's conditions hold
(`|U| = 1 ≤ 1` and unique ratio `1/2 ≤ 0.5`) yet the code leaves `Category`
absent, because its cap test compares the batch uniques against
`max_categories - |category_values| = 0`. -/
theorem C5_counterexample :
    ({"a"} ∪ (List.filterMap id [some "a"]).toFinset : Finset String).card ≤ 1
    ∧ mkRat ((List.filterMap id [some "a"]).toFinset.card) (1 + 1) ≤ mkRat 1 2
    ∧ (gather_type_stats (some 1) [some "a"] 1 emptyStats {"a"}).1 "category" = none
    ∧ (gather_type_stats (some 1) [some "a"] 1 emptyStats {"a"}).2 = {"a"} := by
  decide

/-- C5 amended: with `u` the batch uniques, the accumulator becomes
`category_values ∪ u` exactly when `|category_values| ≤ max_categories` and
`|u| ≤ max_categories - |category_values|`; the Category counter is set to 0
exactly when additionally `max_categories ≠ 0`, `|u| ≤ max_categories` and
`|u| / rows_processed_after ≤ 0.5`; the counter is never any other value.
The positivity hypothesis excludes the row count on which the source would
divide by zero. -/
theorem C5_amended (m : Nat) (raw : List (Option String)) (rows_processed : Nat)
    (st : TypeStats) (cat : Finset String)
    (hrows : 0 < rows_processed + (raw.filterMap id).length) :
    ((gather_type_stats (some m) raw rows_processed st cat).1 "category" = some 0
      ↔ cat.card ≤ m ∧ (raw.filterMap id).toFinset.card ≤ m - cat.card ∧ m ≠ 0
        ∧ (raw.filterMap id).toFinset.card ≤ m
        ∧ mkRat (raw.filterMap id).toFinset.card
            (rows_processed + (raw.filterMap id).length) ≤ mkRat 1 2)
    ∧ ((gather_type_stats (some m) raw rows_processed st cat).1 "category" = some 0
        ∨ (gather_type_stats (some m) raw rows_processed st cat).1 "category" = none)
    ∧ ((gather_type_stats (some m) raw rows_processed st cat).2
        = if cat.card ≤ m ∧ (raw.filterMap id).toFinset.card ≤ m - cat.card
          then cat ∪ (raw.filterMap id).toFinset else cat) := by
  obtain ⟨h1, h2⟩ := gather_category_char m raw rows_processed st cat
  refine ⟨?_, ?_, h2⟩
  · rw [h1]
    split_ifs with hc
    · exact ⟨fun _ => hc, fun _ => rfl⟩
    · simp [hc]
  · rw [h1]
    split_ifs <;> simp

theorem C5_witness :
    (0 < 0 + (List.filterMap id [some "a", some "a"]).length)
    ∧ (((gather_type_stats (some 100) [some "a", some "a"] 0 emptyStats ∅).1 "category"
          = some 0
        ↔ (∅ : Finset String).card ≤ 100
          ∧ (List.filterMap id [some "a", some "a"]).toFinset.card
              ≤ 100 - (∅ : Finset String).card
          ∧ 100 ≠ 0
          ∧ (List.filterMap id [some "a", some "a"]).toFinset.card ≤ 100
          ∧ mkRat (List.filterMap id [some "a", some "a"]).toFinset.card
              (0 + (List.filterMap id [some "a", some "a"]).length) ≤ mkRat 1 2)
      ∧ ((gather_type_stats (some 100) [some "a", some "a"] 0 emptyStats ∅).1 "category"
            = some 0
          ∨ (gather_type_stats (some 100) [some "a", some "a"] 0 emptyStats ∅).1 "category"
            = none)
      ∧ ((gather_type_stats (some 100) [some "a", some "a"] 0 emptyStats ∅).2
          = if (∅ : Finset String).card ≤ 100
              ∧ (List.filterMap id [some "a", some "a"]).toFinset.card
                ≤ 100 - (∅ : Finset String).card
            then ∅ ∪ (List.filterMap id [some "a", some "a"]).toFinset else ∅)) :=
  ⟨by decide, C5_amended 100 [some "a", some "a"] 0 emptyStats ∅ (by decide)⟩

/-- C6 counterexample: one processed batch of four equal values grants the
`'category'` counter; processing a further batch of five fresh values (batch
unique ratio 5/9 > 0.5) removes it again — the counter entry is not
monotone, and presence is not preserved, for `Category`. -/
theorem C6_counterexample :
    ((infer_data_types (some 100) ["col"] initState
        [constRow "p", constRow "p", constRow "p", constRow "p"]).column_types "col")
        "category" = some 0
    ∧ ((infer_data_types (some 100) ["col"]
        (infer_data_types (some 100) ["col"] initState
          [constRow "p", constRow "p", constRow "p", constRow "p"])
        [constRow "q", constRow "r", constRow "s", constRow "t", constRow "u"]).column_types
          "col") "category" = none := by
  decide

/-- C6 amended: for every type key other than `'category'`, a counter present
before a `process` call is present afterwards with a value at least as
large; the `'category'` entry is recomputed from scratch on every call. -/
theorem C6_amended (mc : Option Nat) (cols : List String) (st : InferState)
    (df : List (String → Option String)) (col k : String) (v : Nat)
    (hk : k ≠ "category") (h : (st.column_types col) k = some v) :
    ∃ v', ((infer_data_types mc cols st df).column_types col) k = some v' ∧ v ≤ v' := by
  unfold infer_data_types
  dsimp only
  exact foldl_gatherStep_mono mc df cols st col k hk v h

theorem C6_witness :
    ("bool" ≠ "category")
    ∧ ((infer_data_types (some 100) ["col"] initState [constRow "1"]).column_types "col")
        "bool" = some 0
    ∧ ∃ v', ((infer_data_types (some 100) ["col"]
        (infer_data_types (some 100) ["col"] initState [constRow "1"])
        [constRow "a"]).column_types "col") "bool" = some v' ∧ 0 ≤ v' :=
  ⟨by decide, by decide,
    C6_amended (some 100) ["col"]
      (infer_data_types (some 100) ["col"] initState [constRow "1"])
      [constRow "a"] "col" "bool" 0 (by decide) (by decide)⟩

/-- C7: a type is a candidate exactly when its failure counter exists and is
within the applicable tolerance (dict lookup defaulting to 0, or the global
value with `None` read as 0), with `Object` always a candidate. -/
theorem C7_candidates_iff (type_stats : TypeStats) (tolerance : Tolerance)
    (T : InferenceType) :
    (T.value ∈ candidates_from_type_stats type_stats tolerance
      ↔ (∃ v, type_stats T.value = some v ∧ v ≤ get_tolerance tolerance T.value)
        ∨ T = InferenceType.OBJECT)
    ∧ "object" ∈ candidates_from_type_stats type_stats tolerance := by
  have main : ∀ (U : InferenceType),
      U.value ∈ candidates_from_type_stats type_stats tolerance
        ↔ (∃ v, type_stats U.value = some v ∧ v ≤ get_tolerance tolerance U.value)
          ∨ U = InferenceType.OBJECT := by
    intro U
    unfold candidates_from_type_stats
    rw [candidates_foldl_mem]
    simp only [Finset.not_mem_empty, false_or]
    constructor
    · rintro ⟨t, _, hcond, hval⟩
      have ht : t = U := value_injective t U hval
      subst ht
      rcases hcond with hcond | hcond
      · left
        rcases ho : type_stats t.value with _ | v
        · rw [ho] at hcond
          simp [Option.any] at hcond
        · rw [ho] at hcond
          simp only [Option.any, decide_eq_true_eq] at hcond
          exact ⟨v, rfl, hcond⟩
      · exact Or.inr hcond
    · rintro (⟨v, hv, hle⟩ | hU)
      · refine ⟨U, mem_inference_types_all U, Or.inl ?_, rfl⟩
        rw [hv]
        simpa using hle
      · exact ⟨U, mem_inference_types_all U, Or.inr hU, rfl⟩
  exact ⟨main T, (main InferenceType.OBJECT).mpr (Or.inr rfl)⟩

/-- C8 counterexample: when every column resolves to `Object` (the stored
dtype already matches), the read path returns no exceptions structure at
all — there is no one-mapping-per-row series for the two rows. -/
theorem C8_counterexample :
    ¬ ∃ excs, (load_data_frame_custom [("IntColumn", InferenceType.OBJECT, none)]
      [constRow "x", constRow "y"]).2 = some excs := by
  rintro ⟨excs, h⟩
  have hnone : (load_data_frame_custom [("IntColumn", InferenceType.OBJECT, none)]
      [constRow "x", constRow "y"]).2 = none := rfl
  rw [hnone] at h
  cases h

/-- C8 amended: provided at least one column's resolved type is not Object
(so some conversion actually runs), the returned exceptions structure has
exactly one mapping per row, holding `{column_name: raw_value}` exactly at
the positions where the raw value was non-NA and its conversion came back
null; when every column resolves to Object the structure is `None`. -/
theorem C8_amended (preferred_types : List PreferredType)
    (df : List (String → Option String))
    (nd : (preferred_types.map fun p => p.1).Nodup)
    (hconv : ∃ p ∈ preferred_types, p.2.1 ≠ InferenceType.OBJECT) :
    ∃ excs, (load_data_frame_custom preferred_types df).2 = some excs
      ∧ excs.length = df.length
      ∧ ∀ i k, (excs.getD i emptyRowExc) k = specExceptionEntry preferred_types df i k := by
  obtain ⟨h1, h2, h3⟩ := load_columns_char df preferred_types none nd (Or.inl rfl)
  have hne : (load_columns df preferred_types none).2 ≠ none := by
    intro h
    obtain ⟨p, hp, hpt⟩ := hconv
    exact hpt ((h1.mp h).2 p hp)
  rcases h2 with h2 | ⟨l1, hl1, hlen⟩
  · exact absurd h2 hne
  · refine ⟨l1, hl1, hlen, ?_⟩
    intro i k
    have he := h3 i k
    rw [hl1] at he
    show (l1.getD i emptyRowExc) k = _
    rcases hs : specExceptionEntry preferred_types df i k with _ | raw
    · rw [hs] at he
      exact he
    · rw [hs] at he
      exact he

theorem C8_witness :
    (([("col_a", InferenceType.INT8, none), ("col_b", InferenceType.OBJECT, none)]
        : List PreferredType).map fun p => p.1).Nodup
    ∧ (∃ p ∈ ([("col_a", InferenceType.INT8, none),
        ("col_b", InferenceType.OBJECT, none)] : List PreferredType),
        p.2.1 ≠ InferenceType.OBJECT)
    ∧ ∃ excs, (load_data_frame_custom
        [("col_a", InferenceType.INT8, none), ("col_b", InferenceType.OBJECT, none)]
        [constRow "x", constRow "5"]).2 = some excs
      ∧ excs.length = 2
      ∧ ∀ i k, (excs.getD i emptyRowExc) k = specExceptionEntry
          [("col_a", InferenceType.INT8, none), ("col_b", InferenceType.OBJECT, none)]
          [constRow "x", constRow "5"] i k :=
  ⟨by decide, by decide,
    C8_amended [("col_a", InferenceType.INT8, none), ("col_b", InferenceType.OBJECT, none)]
      [constRow "x", constRow "5"] (by decide) (by decide)⟩

/-- C9 counterexample: on consecutive empty reads with the upload never
ready, the driver's recorded sleeps are 2, 4, 8, 16, 32, 64 seconds — the
last sleep exceeds 60 seconds, so it is not true that the driver never
sleeps longer than 60 seconds. -/
theorem C9_counterexample :
    64 ∈ (do_work_loop false 1 "incomplete" 7 []).1 ∧ ¬(64 ≤ 60) := by
  rw [do_work_loop_eval]
  decide

/-- C9 amended: the backoff starts at 1 and is doubled before each sleep
while it is below 60: consecutive empty reads sleep 2, 4, 8, 16, 32 and
finally 64 seconds, after which the loop exits leaving the schema status and
position untouched (Incomplete, resumable); if the upload is ready the loop
finalizes to Complete without sleeping. -/
theorem C9_amended (status : String) (position : Nat) :
    do_work_loop false 1 status position [] = ([2, 4, 8, 16, 32, 64], status, position)
    ∧ do_work_loop true 1 status position [] = ([], "complete", position) :=
  ⟨do_work_loop_eval status position, do_work_loop_ready status position⟩

/-- C10: starting from counters with no numeric type present, any sequence
of gather calls leaves the numeric failure counters non-increasing along the
most-restrictive-first cascade order, because each type's new failures are
drawn from the residual that failed the preceding type. -/
theorem C10_numeric_chain (mc : Option Nat)
    (batches : List (List (Option String) × Nat)) (st : TypeStats)
    (cat : Finset String)
    (h : ∀ t ∈ inference_types_numeric, st t.value = none) :
    numericCounterChain ((gatherSeq mc batches st cat).1) := by
  apply gatherSeq_chain
  have h0 : ∀ t, t ∈ inference_types_numeric → getD0 st t.value = 0 := by
    intro t ht
    unfold getD0
    rw [h t ht]
    rfl
  have hb := h0 .BOOL (by decide)
  have h8 := h0 .INT8 (by decide)
  have h16 := h0 .INT16 (by decide)
  have h32 := h0 .INT32 (by decide)
  have h64 := h0 .INT64 (by decide)
  have hf32 := h0 .FLOAT32 (by decide)
  have hf64 := h0 .FLOAT64 (by decide)
  have hcx := h0 .COMPLEX (by decide)
  simp only [InferenceType.value] at hb h8 h16 h32 h64 hf32 hf64 hcx
  unfold numericCounterChain
  omega

theorem C10_witness :
    (∀ t ∈ inference_types_numeric, emptyStats t.value = none)
    ∧ numericCounterChain
        ((gatherSeq (some 100) [([some "1", some "a"], 0), ([some "2.5"], 2)]
          emptyStats ∅).1) :=
  ⟨by decide,
    C10_numeric_chain (some 100) [([some "1", some "a"], 0), ([some "2.5"], 2)]
      emptyStats ∅ (by decide)⟩
